import Mathlib

/-!
Tracker-block extension test runner: outcomes, aggregation and report.

Shallow embedding of the Node script that `getTrackerTestRunner`
(`src/dagger-pipeline.go`, lines 91-426) hands to the container as
`/app/run-tests.js`.  The script is read with the escapes of its host string
resolved (an escaped backtick is a backtick, an escaped `${` opens an
interpolation), which is the only reading under which it is a JavaScript
program.

Modelling conventions.

* A test result object is a record; a property that the object does not carry
  (`undefined`) is `none`.
* A duration is an integer-valued double (`Date.now()` differences, the
  `durationMs` of the data model) and is held as an integer.  The sum of
  line 340 is double addition: exact up to 2^53 in magnitude, rounded to
  nearest-even above, infinite on overflow (`jsAdd`).  A number is printed in
  decimal digits, the form it has below 1e21.
* A thrown value is an `Error`; it is represented by its `message`.
* Everything the script asks of the outside world (file system reads, the
  Puppeteer browser, the clock, the locale-formatted date) is a field of `Env`;
  an awaited call is its completed result, `Except.error message` when it
  throws or rejects.
-/

namespace TrackerBlock

/-! ## Data model -/

/-- One element of `testResults`: the object literal every check returns
(`name`, `status`, then `details` or `error`, then `duration`). -/
structure TestResult where
  name : String
  status : String
  details : Option String
  error : Option String
  duration : Option Int
deriving DecidableEq

/-- JavaScript truthiness of a number-valued property: `undefined` and `0` are falsy. -/
def truthyNumber : Option Int → Bool
  | none => false
  | some d => d != 0

/-- JavaScript truthiness of a string-valued property: `undefined` and the empty
string are falsy. -/
def truthyString : Option String → Bool
  | none => false
  | some s => s != ""

/-- The expression `test.duration || 0` (source line 340). -/
def durationOrZero (duration : Option Int) : Int :=
  match duration with
  | none => 0
  | some d => if d != 0 then d else 0

/-! ## Report builder (`generateHtmlReport`, source lines 337-421) -/

/-- The constant `passedTests`:
`results.filter(test => test.status === 'passed').length` (line 338). -/
def passedTests (results : List TestResult) : Nat :=
  (results.filter (fun test => test.status == "passed")).length

/-- The constant `failedTests`:
`results.filter(test => test.status === 'failed').length` (line 339). -/
def failedTests (results : List TestResult) : Nat :=
  (results.filter (fun test => test.status == "failed")).length

/-- The value of a JavaScript sum of integers: an integer-valued double, or an
infinity once a sum has overflowed. -/
inductive JsNumber where
  | finite (value : Int)
  | infinite (negative : Bool)
deriving DecidableEq

/-- The text of a number in a template literal: decimal digits (the form
`Number::toString` gives an integer below 1e21), `Infinity` or `-Infinity`. -/
instance : ToString JsNumber where
  toString
    | .finite value => toString value
    | .infinite negative => if negative then "-Infinity" else "Infinity"

/-- The number of binary digits of `n`; `fuel` bounds the recursion and `n`
itself is enough. -/
def bitLength : Nat → Nat → Nat
  | 0, _ => 0
  | fuel + 1, n => if n = 0 then 0 else bitLength fuel (n / 2) + 1

/-- The magnitude above 2^53 rounded to 53 significant binary digits, to nearest
and to the even neighbour on a tie (IEEE-754 binary64, round-to-nearest-even). -/
def roundMagnitude (n : Nat) : Nat :=
  let unit := 2 ^ (bitLength n n - 53)
  let quotient := n / unit
  let remainder := n % unit
  if 2 * remainder < unit then quotient * unit
  else if unit < 2 * remainder then (quotient + 1) * unit
  else if quotient % 2 = 0 then quotient * unit
  else (quotient + 1) * unit

/-- The double nearest to the integer `x`: `x` itself up to 2^53 in magnitude
(every such integer is a double), the rounded magnitude above, and an infinity
when the rounded magnitude reaches 2^1024. -/
def roundToDouble (x : Int) : JsNumber :=
  if x.natAbs ≤ 2 ^ 53 then .finite x
  else
    let magnitude := roundMagnitude x.natAbs
    if 1024 < bitLength magnitude magnitude then .infinite (decide (x < 0))
    else .finite (if x < 0 then -(magnitude : Int) else (magnitude : Int))

/-- The JavaScript addition `sum + d` of the running sum and an integer-valued
double `d`: the exact sum rounded to the nearest double; an infinity absorbs
every finite operand. -/
def jsAdd (sum : JsNumber) (d : Int) : JsNumber :=
  match sum with
  | .finite value => roundToDouble (value + d)
  | .infinite negative => .infinite negative

/-- The constant `totalDuration`:
`results.reduce((sum, test) => sum + (test.duration || 0), 0)` (line 340). -/
def totalDuration (results : List TestResult) : JsNumber :=
  results.foldl (fun sum test => jsAdd sum (durationOrZero test.duration)) (.finite 0)

/-- The style sheet of the report (source lines 347-372). -/
def htmlStyle : String :=
  "    <style>\n" ++
  "        body \x7b font-family: \x27Segoe UI\x27, Tahoma, Geneva, Verdana, sans-serif; margin: 0; padding: 20px; background: #f5f7fa; \x7d\n" ++
  "        .container \x7b max-width: 1200px; margin: 0 auto; \x7d\n" ++
  "        .header \x7b background: linear-gradient(135deg, #667eea 0%, #764ba2 100%); color: white; padding: 30px; border-radius: 10px; margin-bottom: 20px; text-align: center; \x7d\n" ++
  "        .summary \x7b display: grid; grid-template-columns: repeat(auto-fit, minmax(200px, 1fr)); gap: 20px; margin-bottom: 30px; \x7d\n" ++
  "        .summary-card \x7b background: white; padding: 20px; border-radius: 10px; box-shadow: 0 2px 10px rgba(0,0,0,0.1); text-align: center; \x7d\n" ++
  "        .summary-card h3 \x7b margin: 0 0 10px 0; color: #333; \x7d\n" ++
  "        .summary-card .number \x7b font-size: 2em; font-weight: bold; \x7d\n" ++
  "        .passed-number \x7b color: #4CAF50; \x7d\n" ++
  "        .failed-number \x7b color: #f44336; \x7d\n" ++
  "        .total-number \x7b color: #2196F3; \x7d\n" ++
  "        .duration-number \x7b color: #FF9800; \x7d\n" ++
  "        .test-results \x7b background: white; border-radius: 10px; overflow: hidden; box-shadow: 0 2px 10px rgba(0,0,0,0.1); \x7d\n" ++
  "        .test-result \x7b border-bottom: 1px solid #eee; padding: 20px; \x7d\n" ++
  "        .test-result:last-child \x7b border-bottom: none; \x7d\n" ++
  "        .test-result.passed \x7b border-left: 5px solid #4CAF50; \x7d\n" ++
  "        .test-result.failed \x7b border-left: 5px solid #f44336; \x7d\n" ++
  "        .test-name \x7b font-weight: bold; font-size: 18px; margin-bottom: 10px; \x7d\n" ++
  "        .test-meta \x7b display: flex; gap: 20px; margin-bottom: 10px; font-size: 14px; color: #666; \x7d\n" ++
  "        .test-status \x7b padding: 4px 12px; border-radius: 20px; font-size: 12px; font-weight: bold; text-transform: uppercase; \x7d\n" ++
  "        .status-passed \x7b background: #E8F5E8; color: #2E7D32; \x7d\n" ++
  "        .status-failed \x7b background: #FFEBEE; color: #C62828; \x7d\n" ++
  "        .test-details \x7b color: #666; margin-top: 10px; \x7d\n" ++
  "        .error \x7b color: #f44336; background: #ffebee; padding: 15px; border-radius: 5px; margin-top: 10px; font-family: monospace; \x7d\n" ++
  "        .timestamp \x7b text-align: center; color: #666; margin-top: 30px; font-size: 14px; \x7d\n" ++
  "    </style>\n"

/-- Template text after the title element up to the total-tests figure: the
style sheet and the page header (source lines 346-384). -/
def htmlStyleAndHeader : String :=
  "\n" ++
  htmlStyle ++
  "</head>\n" ++
  "<body>\n" ++
  "    <div class=\"container\">\n" ++
  "        <div class=\"header\">\n" ++
  "            <h1>\uf8ff\u00fc\u00f5\u00b0\u00d4\u220f\u00e8 Tracker Blocker Extension Test Report</h1>\n" ++
  "            <p>Comprehensive testing results for Chrome extension functionality</p>\n" ++
  "        </div>\n" ++
  "        \n" ++
  "        <div class=\"summary\">\n" ++
  "            <div class=\"summary-card\">\n" ++
  "                <h3>Total Tests</h3>\n" ++
  "                <div class=\"number total-number\">"

/-- Template text of the report from its start up to the total-tests figure
(source lines 342-384): the document head with the title, then
`htmlStyleAndHeader`. -/
def htmlHead : String :=
  "\n" ++
  "<!DOCTYPE html>\n" ++
  "<html>\n" ++
  "<head>\n" ++
  "    " ++
  "<title>Tracker Blocker Extension Test Report</title>" ++
  htmlStyleAndHeader

/-- Template text between the total figure and the passed figure. -/
def htmlAfterTotal : String :=
  "</div>\n" ++
  "            </div>\n" ++
  "            <div class=\"summary-card\">\n" ++
  "                <h3>Passed</h3>\n" ++
  "                <div class=\"number passed-number\">"

/-- Template text between the passed figure and the failed figure. -/
def htmlAfterPassed : String :=
  "</div>\n" ++
  "            </div>\n" ++
  "            <div class=\"summary-card\">\n" ++
  "                <h3>Failed</h3>\n" ++
  "                <div class=\"number failed-number\">"

/-- Template text between the failed figure and the duration figure. -/
def htmlAfterFailed : String :=
  "</div>\n" ++
  "            </div>\n" ++
  "            <div class=\"summary-card\">\n" ++
  "                <h3>Duration</h3>\n" ++
  "                <div class=\"number duration-number\">"

/-- Template text between the duration figure and the per-test blocks. -/
def htmlAfterDuration : String :=
  "ms</div>\n" ++
  "            </div>\n" ++
  "        </div>\n" ++
  "        \n" ++
  "        <div class=\"test-results\">\n" ++
  "            "

/-- Template text between the per-test blocks and the generation time. -/
def htmlAfterResults : String :=
  "\n" ++
  "        </div>\n" ++
  "        \n" ++
  "        <div class=\"timestamp\">\n" ++
  "            Report generated on "

/-- Template text after the generation time, to the end of the document. -/
def htmlTail : String :=
  "\n" ++
  "        </div>\n" ++
  "    </div>\n" ++
  "</body>\n" ++
  "</html>\n" ++
  "  "

/-- The duration element of a block (line 406):
`test.duration ? <span>.. ${test.duration}ms</span> : ''`. -/
def durationElement (test : TestResult) : String :=
  if truthyNumber test.duration then
    "<span>\u201a\u00e8\u00b1\u00d4\u220f\u00e8 " ++ toString (test.duration.getD 0) ++ "ms</span>"
  else ""

/-- The details element of a block (line 408):
`test.details ? <div class="test-details">.. ${test.details}</div> : ''`. -/
def detailsElement (test : TestResult) : String :=
  if truthyString test.details then
    "<div class=\"test-details\">\uf8ff\u00fc\u00ec\u00e3 " ++ test.details.getD "" ++ "</div>"
  else ""

/-- The error element of a block (line 409):
`test.error ? <div class="error">.. ${test.error}</div> : ''`. -/
def errorElement (test : TestResult) : String :=
  if truthyString test.error then
    "<div class=\"error\">\u201a\u00f9\u00e5 " ++ test.error.getD "" ++ "</div>"
  else ""

/-- The template of one block, the arrow function mapped over `results`
(lines 401-411). -/
def renderTest (test : TestResult) : String :=
  "\n" ++
  "                <div class=\"test-result " ++ test.status ++ "\">\n" ++
  "                    <div class=\"test-name\">" ++ test.name ++ "</div>\n" ++
  "                    <div class=\"test-meta\">\n" ++
  "                        <span class=\"test-status status-" ++ test.status ++ "\">" ++
    test.status ++ "</span>\n" ++
  "                        " ++ durationElement test ++ "\n" ++
  "                    </div>\n" ++
  "                    " ++ detailsElement test ++ "\n" ++
  "                    " ++ errorElement test ++ "\n" ++
  "                </div>\n" ++
  "            "

/-- The function `generateHtmlReport(results)`; `generatedOn` is the value of
`new Date().toLocaleString()` at line 415. -/
def generateHtmlReport (results : List TestResult) (generatedOn : String) : String :=
  htmlHead ++ toString results.length ++
  htmlAfterTotal ++ toString (passedTests results) ++
  htmlAfterPassed ++ toString (failedTests results) ++
  htmlAfterFailed ++ toString (totalDuration results) ++
  htmlAfterDuration ++ String.join (results.map renderTest) ++
  htmlAfterResults ++ generatedOn ++
  htmlTail

/-! ## Exit status (`runTests`, source lines 168-171) -/

/-- The constant `hasFailures`:
`testResults.some(test => test.status === 'failed')` (line 169). -/
def hasFailures (testResults : List TestResult) : Bool :=
  testResults.any (fun test => test.status == "failed")

/-- The argument of `process.exit` (line 171): `hasFailures ? 1 : 0`. -/
def exitCode (testResults : List TestResult) : Nat :=
  if hasFailures testResults then 1 else 0

/-! ## The outside world of the script -/

/-- The object returned by the callback of `worker.evaluate` (lines 215-221). -/
structure EvaluateResult where
  hasChrome : Bool
  hasWebRequest : Bool
  timestamp : Int

/-- A service worker handle: `evaluate` is the completed `worker.evaluate(..)`. -/
structure Worker where
  evaluate : Except String EvaluateResult

/-- A Puppeteer target: its `type()` and the completed `worker()` call. -/
structure Target where
  type : String
  worker : Except String Worker

/-- A page opened by `browser.newPage()`.  `goto` and `waitForTimeout` complete
with the URLs that the `request` handler pushed to `allRequests` meanwhile. -/
structure Page where
  setRequestInterception : Except String Unit
  goto : Except String (List String)
  waitForTimeout : Except String (List String)
  close : Except String Unit

/-- The launched browser.  `targets n` is the completed `n`-th call of
`browser.targets()` of the run (the script makes two, one per check). -/
structure Browser where
  targets : Nat → Except String (List Target)
  newPage : Except String Page
  close : Except String Unit

/-- What a run of the script observes: `fs.existsSync`, `fs.readFileSync(.., 'utf8')`,
`puppeteer.launch(..)`, the successive readings of `Date.now()` and the value of
`new Date().toLocaleString()`. -/
structure Env where
  existsSync : String → Bool
  readFileSync : String → Except String String
  launch : Except String Browser
  dateNow : Nat → Int
  toLocaleString : String

/-- Node's `path.join(dir, file)` for a normalized directory and a plain file name. -/
def pathJoin (dir file : String) : String :=
  dir ++ "/" ++ file

/-- The constant `extensionPath = path.resolve('/app/extension')` (line 100). -/
def extensionPath : String := "/app/extension"

/-- The constant `requiredFiles` (line 106). -/
def requiredFiles : List String :=
  ["manifest.json", "background.js", "tracker-block-extension.js", "tracking-blocker.js",
    "tracker-urls.txt"]

/-- ECMAScript `WhiteSpace` and `LineTerminator` code points, the characters
`String.prototype.trim` strips. -/
def isJsWhiteSpace (c : Char) : Bool :=
  c.val == 0x09 || c.val == 0x0A || c.val == 0x0B || c.val == 0x0C || c.val == 0x0D ||
  c.val == 0x20 || c.val == 0xA0 || c.val == 0x1680 ||
  (0x2000 ≤ c.val && c.val ≤ 0x200A) ||
  c.val == 0x2028 || c.val == 0x2029 || c.val == 0x202F || c.val == 0x205F ||
  c.val == 0x3000 || c.val == 0xFEFF

/-- The method `String.prototype.trim`: white space is dropped at both ends. -/
def jsTrim (s : String) : String :=
  ⟨((s.data.dropWhile isJsWhiteSpace).reverse.dropWhile isJsWhiteSpace).reverse⟩

/-- The pieces of `chars` between occurrences of `sep`; `current` is the piece
being read, reversed. -/
def splitChars (sep : Char) (current : List Char) : List Char → List String
  | [] => [⟨current.reverse⟩]
  | c :: rest =>
    if c == sep then ⟨current.reverse⟩ :: splitChars sep [] rest
    else splitChars sep (c :: current) rest

/-- The call `s.split(sep)` for a one-character separator. -/
def jsSplit (s : String) (sep : Char) : List String :=
  splitChars sep [] s.data

/-! ## The checks (source lines 174-317) -/

/-- The `try` block of `testExtensionLoading` (lines 177-191). -/
def testExtensionLoadingTry (env : Env) (browser : Browser) (startTime : Int) :
    Except String TestResult := do
  let targets ← browser.targets 0
  let extensionTarget := targets.find? (fun target => target.type == "service_worker")
  if extensionTarget.isNone then
    throw "Extension service worker not found"
  pure {
    name := "Extension Loading"
    status := "passed"
    details := some "Extension loaded successfully with service worker"
    error := none
    duration := some (env.dateNow 1 - startTime) }

/-- The function `testExtensionLoading(browser)` (lines 174-200). -/
def testExtensionLoading (env : Env) (browser : Browser) : TestResult :=
  let startTime := env.dateNow 0
  match testExtensionLoadingTry env browser startTime with
  | .ok result => result
  | .error message => {
      name := "Extension Loading"
      status := "failed"
      details := none
      error := some message
      duration := some (env.dateNow 1 - startTime) }

/-- The `try` block of `testBackgroundScript` (lines 205-234). -/
def testBackgroundScriptTry (env : Env) (browser : Browser) (startTime : Int) :
    Except String TestResult := do
  let targets ← browser.targets 1
  match targets.find? (fun target => target.type == "service_worker") with
  | none => throw "Service worker not found"
  | some extensionTarget =>
    let worker ← extensionTarget.worker
    let result ← worker.evaluate
    if !result.hasChrome || !result.hasWebRequest then
      throw "Chrome APIs not available in background script"
    pure {
      name := "Background Script"
      status := "passed"
      details := some "Background script loaded with Chrome APIs"
      error := none
      duration := some (env.dateNow 3 - startTime) }

/-- The function `testBackgroundScript(browser)` (lines 202-243). -/
def testBackgroundScript (env : Env) (browser : Browser) : TestResult :=
  let startTime := env.dateNow 2
  match testBackgroundScriptTry env browser startTime with
  | .ok result => result
  | .error message => {
      name := "Background Script"
      status := "failed"
      details := none
      error := some message
      duration := some (env.dateNow 3 - startTime) }

/-- The `try` block of `testTrackerBlocking` (lines 248-279). -/
def testTrackerBlockingTry (env : Env) (browser : Browser) (startTime : Int) :
    Except String TestResult := do
  let page ← browser.newPage
  page.setRequestInterception
  let allRequests : List String := []
  let duringGoto ← page.goto
  let allRequests := allRequests ++ duringGoto
  let duringWait ← page.waitForTimeout
  let allRequests := allRequests ++ duringWait
  page.close
  pure {
    name := "Tracker Blocking"
    status := "passed"
    details := some ("Monitored " ++ toString allRequests.length ++
      " requests, extension is active")
    error := none
    duration := some (env.dateNow 5 - startTime) }

/-- The function `testTrackerBlocking(browser)` (lines 245-288). -/
def testTrackerBlocking (env : Env) (browser : Browser) : TestResult :=
  let startTime := env.dateNow 4
  match testTrackerBlockingTry env browser startTime with
  | .ok result => result
  | .error message => {
      name := "Tracker Blocking"
      status := "failed"
      details := none
      error := some message
      duration := some (env.dateNow 5 - startTime) }

/-- The `try` block of `testTrackerUrlsLoading` (lines 293-308). -/
def testTrackerUrlsLoadingTry (env : Env) (extensionPath : String) (startTime : Int) :
    Except String TestResult := do
  let trackerUrlsPath := pathJoin extensionPath "tracker-urls.txt"
  let trackerUrls ← env.readFileSync trackerUrlsPath
  if trackerUrls == "" || (jsTrim trackerUrls).length == 0 then
    throw "tracker-urls.txt is empty or not found"
  let urlCount := (jsSplit (jsTrim trackerUrls) '\n').length
  pure {
    name := "Tracker URLs Loading"
    status := "passed"
    details := some ("Successfully loaded " ++ toString urlCount ++ " tracker URLs")
    error := none
    duration := some (env.dateNow 7 - startTime) }

/-- The function `testTrackerUrlsLoading(browser, extensionPath)` (lines 290-317);
the `browser` argument is not used by the body. -/
def testTrackerUrlsLoading (env : Env) (_browser : Browser) (extensionPath : String) :
    TestResult :=
  let startTime := env.dateNow 6
  match testTrackerUrlsLoadingTry env extensionPath startTime with
  | .ok result => result
  | .error message => {
      name := "Tracker URLs Loading"
      status := "failed"
      details := none
      error := some message
      duration := some (env.dateNow 7 - startTime) }

/-! ## The runner (`runTests`, source lines 97-172) -/

/-- The loop over `requiredFiles` (lines 107-111): the first file that
`fs.existsSync` does not find is thrown as an error naming it. -/
def verifyExtensionFiles (env : Env) : List String → Except String Unit
  | [] => pure ()
  | file :: rest =>
    if !env.existsSync (pathJoin extensionPath file) then
      throw ("Extension file missing: " ++ file)
    else verifyExtensionFiles env rest

/-- The object pushed by the `catch` clause of `runTests` (lines 153-158). -/
def suiteInitializationFailure (message : String) : TestResult :=
  { name := "Test Suite Initialization"
    status := "failed"
    details := none
    error := some message
    duration := some 0 }

/-- The array `testResults` when the `try`/`catch` statement of `runTests`
(lines 104-158) completes: what was pushed so far, plus the suite
initialization entry when the `try` block threw. -/
def collectResults (env : Env) : List TestResult :=
  let testResults : List TestResult := []
  match verifyExtensionFiles env requiredFiles with
  | .error message => testResults ++ [suiteInitializationFailure message]
  | .ok () =>
    match env.launch with
    | .error message => testResults ++ [suiteInitializationFailure message]
    | .ok browser =>
      let loadingTest := testExtensionLoading env browser
      let testResults := testResults ++ [loadingTest]
      let backgroundTest := testBackgroundScript env browser
      let testResults := testResults ++ [backgroundTest]
      let blockingTest := testTrackerBlocking env browser
      let testResults := testResults ++ [blockingTest]
      let urlsTest := testTrackerUrlsLoading env browser extensionPath
      let testResults := testResults ++ [urlsTest]
      testResults

/-- The `finally` clause of `runTests` (lines 159-163): `browser` is set only
when the launch completed, and then `browser.close()` is awaited. -/
def closeBrowser (env : Env) : Except String Unit :=
  match verifyExtensionFiles env requiredFiles with
  | .error _ => pure ()
  | .ok () =>
    match env.launch with
    | .error _ => pure ()
    | .ok browser => browser.close

/-- The passed object literal shared by the four checks: a name, the status
`passed`, a `details` text and a duration, no `error`. -/
def passedResult (name details : String) (duration : Int) : TestResult :=
  { name := name, status := "passed", details := some details, error := none,
    duration := some duration }

/-- The failed object literal shared by the four checks and the suite
initialization entry: a name, the status `failed`, the caught `error.message`
and a duration, no `details`. -/
def failedResult (name message : String) (duration : Int) : TestResult :=
  { name := name, status := "failed", details := none, error := some message,
    duration := some duration }

/-- The invariant of the data model: `error` is set exactly when the status is
`failed`, and `details` is set only when the status is `passed`. -/
def TestResult.Invariant (test : TestResult) : Prop :=
  (test.error.isSome = true ↔ test.status = "failed") ∧
  (test.details.isSome = true → test.status = "passed")

instance (test : TestResult) : Decidable test.Invariant := by
  unfold TestResult.Invariant
  infer_instance

/-- A JSON value; an object is the list of its own properties in order. -/
inductive JsonValue where
  | null
  | bool (b : Bool)
  | number (n : Int)
  | string (s : String)
  | array (elements : List JsonValue)
  | object (members : List (String × JsonValue))

/-- The JavaScript value of one test result object: its own properties in the
order of the object literals of the checks, a property that is not set being
left out. -/
def testResultValue (test : TestResult) : JsonValue :=
  .object (
    [("name", .string test.name), ("status", .string test.status)] ++
    (match test.details with
      | some details => [("details", JsonValue.string details)]
      | none => []) ++
    (match test.error with
      | some error => [("error", JsonValue.string error)]
      | none => []) ++
    (match test.duration with
      | some duration => [("duration", JsonValue.number duration)]
      | none => []))

/-- The JavaScript value of the array `testResults`. -/
def resultsValue (results : List TestResult) : JsonValue :=
  .array (results.map testResultValue)

/-- The gap of `JSON.stringify(value, null, 2)`: two spaces. -/
def jsonGap : List Char := [' ', ' ']

/-- ECMA-262 `UnicodeEscape`: a backslash, `u` and four lower-case hex digits. -/
def unicodeEscape (c : Char) : List Char :=
  ['\\', 'u', Nat.digitChar (c.toNat / 4096 % 16), Nat.digitChar (c.toNat / 256 % 16),
    Nat.digitChar (c.toNat / 16 % 16), Nat.digitChar (c.toNat % 16)]

/-- The text that `QuoteJSONString` produces for one code point. -/
def quoteChar (c : Char) : List Char :=
  if c = '\x08' then ['\\', 'b']
  else if c = '\t' then ['\\', 't']
  else if c = '\n' then ['\\', 'n']
  else if c = '\x0c' then ['\\', 'f']
  else if c = '\r' then ['\\', 'r']
  else if c = '\"' then ['\\', '\"']
  else if c = '\\' then ['\\', '\\']
  else if c.toNat < 0x20 then unicodeEscape c
  else [c]

/-- The escaped code points of a string, without the enclosing quotes. -/
def quoteChars : List Char → List Char
  | [] => []
  | c :: cs => quoteChar c ++ quoteChars cs

/-- ECMA-262 `QuoteJSONString`. -/
def quoteJSONString (s : String) : List Char :=
  '\"' :: (quoteChars s.data ++ ['\"'])

/-- The texts of `parts` joined by `separator`. -/
def joinWith (separator : List Char) : List (List Char) → List Char
  | [] => []
  | [part] => part
  | part :: next :: parts => part ++ separator ++ joinWith separator (next :: parts)

mutual
/-- ECMA-262 `SerializeJSONProperty` for a value, at the current `indent`. -/
def serializeJSONProperty (indent : List Char) : JsonValue → List Char
  | .string s => quoteJSONString s
  | .number n => (toString n).data
  | .bool b => if b then "true".data else "false".data
  | .null => "null".data
  | .array [] => ['[', ']']
  | .array (element :: elements) =>
    ['[', '\n'] ++ (indent ++ jsonGap) ++
      joinWith ([',', '\n'] ++ (indent ++ jsonGap))
        (serializeElements (indent ++ jsonGap) (element :: elements)) ++
      ['\n'] ++ indent ++ [']']
  | .object [] => ['\x7b', '\x7d']
  | .object (member :: members) =>
    ['\x7b', '\n'] ++ (indent ++ jsonGap) ++
      joinWith ([',', '\n'] ++ (indent ++ jsonGap))
        (serializeMembers (indent ++ jsonGap) (member :: members)) ++
      ['\n'] ++ indent ++ ['\x7d']
/-- The serialized elements of an array (`SerializeJSONArray`, the list `partial`). -/
def serializeElements (indent : List Char) : List JsonValue → List (List Char)
  | [] => []
  | element :: elements =>
    serializeJSONProperty indent element :: serializeElements indent elements
/-- The serialized members of an object (`SerializeJSONObject`, the list
`partial`): the quoted key, a colon, a space and the value. -/
def serializeMembers (indent : List Char) : List (String × JsonValue) → List (List Char)
  | [] => []
  | (key, value) :: members =>
    (quoteJSONString key ++ [':', ' '] ++ serializeJSONProperty indent value) ::
      serializeMembers indent members
end

/-- The call `JSON.stringify(value, null, 2)`. -/
def jsonStringify (value : JsonValue) : String :=
  ⟨serializeJSONProperty [] value⟩

/-- JSON white space: tab, line feed, carriage return, space. -/
def isJsonWhiteSpace (c : Char) : Bool :=
  c == '\t' || c == '\n' || c == '\r' || c == ' '

/-- The input after its leading JSON white space. -/
def skipWhiteSpace : List Char → List Char
  | [] => []
  | c :: cs => if isJsonWhiteSpace c then skipWhiteSpace cs else c :: cs

/-- The value of a hexadecimal digit, in either case. -/
def hexValue (c : Char) : Option Nat :=
  if '0' ≤ c ∧ c ≤ '9' then some (c.toNat - '0'.toNat)
  else if 'a' ≤ c ∧ c ≤ 'f' then some (c.toNat - 'a'.toNat + 10)
  else if 'A' ≤ c ∧ c ≤ 'F' then some (c.toNat - 'A'.toNat + 10)
  else none

/-- The code unit written by four hexadecimal digits. -/
def hexValue4 (a b c d : Char) : Option Nat :=
  match hexValue a, hexValue b, hexValue c, hexValue d with
  | some x, some y, some z, some w => some (x * 4096 + y * 256 + z * 16 + w)
  | _, _, _, _ => none

/-- The character denoted by a one-letter escape of the JSON grammar. -/
def simpleEscape (e : Char) : Option Char :=
  if e = '\"' then some '\"'
  else if e = '\\' then some '\\'
  else if e = '/' then some '/'
  else if e = 'b' then some '\x08'
  else if e = 'f' then some '\x0c'
  else if e = 'n' then some '\n'
  else if e = 'r' then some '\r'
  else if e = 't' then some '\t'
  else none

/-- The characters of a JSON string up to its closing quote, the input being
what follows the opening quote; `read` holds the characters read so far, last
first.  A control character must be escaped.  An escape that denotes a
surrogate code unit has no counterpart among the code points of the model and
is refused, like a syntax error. -/
def parseStringChars (read : List Char) : List Char → Option (String × List Char)
  | [] => none
  | c :: rest =>
    if c = '\"' then some (⟨read.reverse⟩, rest)
    else if c = '\\' then
      match rest with
      | [] => none
      | e :: more =>
        if e = 'u' then
          match more with
          | h1 :: h2 :: h3 :: h4 :: after =>
            match hexValue4 h1 h2 h3 h4 with
            | some code =>
              if 0xD800 ≤ code ∧ code < 0xE000 then none
              else parseStringChars (Char.ofNat code :: read) after
            | none => none
          | _ => none
        else
          match simpleEscape e with
          | some escaped => parseStringChars (escaped :: read) more
          | none => none
    else if c.toNat < 0x20 then none
    else parseStringChars (c :: read) rest

/-- The digits at the front of the input, read as a decimal numeral continuing
`value`, and what follows them. -/
def parseDigits (value : Nat) : List Char → Nat × List Char
  | [] => (value, [])
  | c :: cs =>
    if c.isDigit then parseDigits (10 * value + (c.toNat - '0'.toNat)) cs
    else (value, c :: cs)

/-- The integer part of a JSON number: `0`, or a non-zero digit followed by digits. -/
def parseUnsigned : List Char → Option (Nat × List Char)
  | [] => none
  | c :: cs =>
    if c = '0' then some (0, cs)
    else if c.isDigit then some (parseDigits (c.toNat - '0'.toNat) cs)
    else none

/-- Whether a fraction or an exponent follows; such numbers are not integers of
the model. -/
def startsFractionOrExponent : List Char → Bool
  | [] => false
  | c :: _ => c == '.' || c == 'e' || c == 'E'

/-- The input does not continue a number: it does not start with a digit, a
point or an exponent mark. -/
def EndsNumber (tail : List Char) : Prop :=
  ∀ c rest, tail = c :: rest → c.isDigit = false ∧ c ≠ '.' ∧ c ≠ 'e' ∧ c ≠ 'E'

/-- A JSON number without fraction and exponent. -/
def parseNumber : List Char → Option (Int × List Char)
  | [] => none
  | c :: cs =>
    if c = '-' then
      match parseUnsigned cs with
      | some (n, rest) =>
        if startsFractionOrExponent rest then none else some (-(n : Int), rest)
      | none => none
    else
      match parseUnsigned (c :: cs) with
      | some (n, rest) =>
        if startsFractionOrExponent rest then none else some ((n : Int), rest)
      | none => none

mutual
/-- A JSON value, after optional white space; `fuel` bounds the number of nested
calls. -/
def parseValue : Nat → List Char → Option (JsonValue × List Char)
  | 0, _ => none
  | fuel + 1, cs =>
    match skipWhiteSpace cs with
    | [] => none
    | c :: rest =>
      if c = '\"' then
        match parseStringChars [] rest with
        | some (s, after) => some (.string s, after)
        | none => none
      else if c = '[' then
        match skipWhiteSpace rest with
        | ']' :: after => some (.array [], after)
        | _ =>
          match parseElements fuel rest with
          | some (elements, after) => some (.array elements, after)
          | none => none
      else if c = '\x7b' then
        match skipWhiteSpace rest with
        | '\x7d' :: after => some (.object [], after)
        | _ =>
          match parseMembers fuel rest with
          | some (members, after) => some (.object members, after)
          | none => none
      else if c = 'n' then
        match rest with
        | 'u' :: 'l' :: 'l' :: after => some (.null, after)
        | _ => none
      else if c = 't' then
        match rest with
        | 'r' :: 'u' :: 'e' :: after => some (.bool true, after)
        | _ => none
      else if c = 'f' then
        match rest with
        | 'a' :: 'l' :: 's' :: 'e' :: after => some (.bool false, after)
        | _ => none
      else
        match parseNumber (c :: rest) with
        | some (n, after) => some (.number n, after)
        | none => none
/-- The elements of a non-empty array and its closing bracket. -/
def parseElements : Nat → List Char → Option (List JsonValue × List Char)
  | 0, _ => none
  | fuel + 1, cs =>
    match parseValue fuel cs with
    | none => none
    | some (element, rest) =>
      match skipWhiteSpace rest with
      | ',' :: more =>
        match parseElements fuel more with
        | some (elements, after) => some (element :: elements, after)
        | none => none
      | ']' :: after => some ([element], after)
      | _ => none
/-- The members of a non-empty object and its closing brace. -/
def parseMembers : Nat → List Char → Option (List (String × JsonValue) × List Char)
  | 0, _ => none
  | fuel + 1, cs =>
    match skipWhiteSpace cs with
    | '\"' :: rest =>
      match parseStringChars [] rest with
      | none => none
      | some (key, afterKey) =>
        match skipWhiteSpace afterKey with
        | ':' :: afterColon =>
          match parseValue fuel afterColon with
          | none => none
          | some (value, afterValue) =>
            match skipWhiteSpace afterValue with
            | ',' :: more =>
              match parseMembers fuel more with
              | some (members, after) => some ((key, value) :: members, after)
              | none => none
            | '\x7d' :: after => some ([(key, value)], after)
            | _ => none
        | _ => none
    | _ => none
end

/-- The call `JSON.parse(text)`: one value, with nothing but white space after
it; `none` stands for a `SyntaxError` (or a number outside the model). -/
def jsonParse (text : String) : Option JsonValue :=
  match parseValue (text.data.length + 1) text.data with
  | some (value, rest) => if skipWhiteSpace rest = [] then some value else none
  | none => none

/-- The value of the property `key` of an object with the given members; of two
members with the same key the later one is the property. -/
def property (members : List (String × JsonValue)) (key : String) : Option JsonValue :=
  match members.reverse.find? (fun member => member.1 == key) with
  | some member => some member.2
  | none => none

/-- An optional string-valued property: `some none` when the property is not
set, `none` when it is set to something that is not a string. -/
def readOptionalString (members : List (String × JsonValue)) (key : String) :
    Option (Option String) :=
  match property members key with
  | none => some none
  | some (.string s) => some (some s)
  | some _ => none

/-- An optional number-valued property. -/
def readOptionalNumber (members : List (String × JsonValue)) (key : String) :
    Option (Option Int) :=
  match property members key with
  | none => some none
  | some (.number n) => some (some n)
  | some _ => none

/-- The fields of a test result read off a parsed object, property by property. -/
def readTestResult : JsonValue → Option TestResult
  | .object members =>
    match property members "name", property members "status",
      readOptionalString members "details", readOptionalString members "error",
      readOptionalNumber members "duration" with
    | some (.string name), some (.string status), some details, some error, some duration =>
      some { name := name, status := status, details := details, error := error,
             duration := duration }
    | _, _, _, _, _ => none
  | _ => none

/-- The test results read off the elements of a parsed array, in order. -/
def readTestResults : List JsonValue → Option (List TestResult)
  | [] => some []
  | element :: elements =>
    match readTestResult element, readTestResults elements with
    | some test, some tests => some (test :: tests)
    | _, _ => none

/-- The test results read off a parsed array, element by element in order. -/
def readResults : JsonValue → Option (List TestResult)
  | .array elements => readTestResults elements
  | _ => none

/-- A string or a number. -/
def JsonValue.isScalar : JsonValue → Bool
  | .string _ => true
  | .number _ => true
  | _ => false

/-- An object with at least one and at most `bound` members, all of them
strings or numbers. -/
def IsFlatObject (bound : Nat) : JsonValue → Prop
  | .object (member :: members) =>
    (∀ entry ∈ member :: members, entry.2.isScalar = true) ∧
      (member :: members).length ≤ bound
  | _ => False

/-- Every character of `ws` is JSON white space. -/
def AllWhiteSpace (ws : List Char) : Prop :=
  ∀ c ∈ ws, isJsonWhiteSpace c = true

/-! ## Report generation and the whole run -/

/-- The function `generateReports(testResults)` (lines 319-335): the text written
to `/app/test-results/results.json` and the text written to
`/app/test-report.html`. -/
def generateReports (testResults : List TestResult) (generatedOn : String) :
    String × String :=
  (jsonStringify (resultsValue testResults), generateHtmlReport testResults generatedOn)

/-- What a completed run leaves behind: the array handed to `generateReports`,
the text of `/app/test-results/results.json`, the text of
`/app/test-report.html` and the argument of `process.exit`. -/
structure RunOutput where
  testResults : List TestResult
  resultsJson : String
  htmlReport : String
  exitCode : Nat

/-- The function `runTests()` (lines 97-172).  The result is `Except.error` when
the `finally` clause rethrows (the promise rejects before any report is
generated); the writes of `generateReports` are taken to succeed. -/
def runTests (env : Env) : Except String RunOutput := do
  let testResults := collectResults env
  closeBrowser env
  let reports := generateReports testResults env.toLocaleString
  pure {
    testResults := testResults
    resultsJson := reports.1
    htmlReport := reports.2
    exitCode := exitCode testResults }

/-! ## Concrete inputs used by the witnesses -/

/-- The four outcomes `passed(10)`, `failed(5, "x")`, `passed(0)`, `failed(20, "y")`. -/
def fourOutcomes : List TestResult :=
  [ { name := "Extension Loading", status := "passed", details := none, error := none,
      duration := some 10 },
    { name := "Background Script", status := "failed", details := none, error := some "x",
      duration := some 5 },
    { name := "Tracker Blocking", status := "passed", details := none, error := none,
      duration := some 0 },
    { name := "Tracker URLs Loading", status := "failed", details := none, error := some "y",
      duration := some 20 } ]

/-- Two outcomes, both passed. -/
def allPassed : List TestResult :=
  [ { name := "Extension Loading", status := "passed",
      details := some "Extension loaded successfully with service worker", error := none,
      duration := some 12 },
    { name := "Background Script", status := "passed",
      details := some "Background script loaded with Chrome APIs", error := none,
      duration := some 7 } ]

/-- A browser whose every call rejects with `message`. -/
def brokenBrowser (message : String) : Browser :=
  { targets := fun _ => .error message
    newPage := .error message
    close := .ok () }

/-- A run in which `tracking-blocker.js` was not staged. -/
def envMissingFile : Env :=
  { existsSync := fun path => path != "/app/extension/tracking-blocker.js"
    readFileSync := fun _ => .error "ENOENT: no such file or directory"
    launch := .error "Failed to launch the browser process!"
    dateNow := fun n => 1000 + n
    toLocaleString := "11/1/2026, 7:09:00 PM" }

/-- A run in which all files are staged and Chrome does not start. -/
def envLaunchFails : Env :=
  { existsSync := fun _ => true
    readFileSync := fun _ => .error "ENOENT: no such file or directory"
    launch := .error "Failed to launch the browser process!"
    dateNow := fun n => 1000 + n
    toLocaleString := "11/1/2026, 7:09:00 PM" }

/-- A run in which setup succeeds, every browser call rejects with
`Target closed` and the URL list holds two lines. -/
def envBrowserBroken : Env :=
  { existsSync := fun _ => true
    readFileSync := fun _ => .ok "doubleclick.net\ngoogle-analytics.com\n"
    launch := .ok (brokenBrowser "Target closed")
    dateNow := fun n => 1000 + 3 * n
    toLocaleString := "11/1/2026, 7:09:00 PM" }

/-- Two outcomes whose durations are 2^53 ms and 1 ms. -/
def beyondSafeRange : List TestResult :=
  [ { name := "Extension Loading", status := "passed", details := none, error := none,
      duration := some 9007199254740992 },
    { name := "Background Script", status := "passed", details := none, error := none,
      duration := some 1 } ]

theorem roundToDouble_exact (x : Int) (h : x.natAbs ≤ 2 ^ 53) :
    roundToDouble x = .finite x := by
  unfold roundToDouble
  rw [if_pos h]

/-- The running sum of line 340 is the exact sum as long as every partial sum
stays within 2^53 in magnitude. -/
theorem foldl_jsAdd_exact (durations : List Int) :
    ∀ start : Int,
      (∀ k ≤ durations.length, (start + (durations.take k).sum).natAbs ≤ 2 ^ 53) →
      durations.foldl jsAdd (.finite start) = .finite (start + durations.sum) := by
  induction durations with
  | nil => intro start _; simp
  | cons d rest ih =>
    intro start h
    have hstep : (start + d).natAbs ≤ 2 ^ 53 := by
      have := h 1 (by simp)
      simpa using this
    have hrest : ∀ k ≤ rest.length, (start + d + (rest.take k).sum).natAbs ≤ 2 ^ 53 := by
      intro k hk
      have := h (k + 1) (by simpa using hk)
      simpa [List.take_succ_cons, List.sum_cons, add_assoc] using this
    simp only [List.foldl_cons, jsAdd, roundToDouble_exact _ hstep]
    rw [ih (start + d) hrest]
    simp [List.sum_cons, add_assoc]

theorem totalDuration_eq_foldl (results : List TestResult) :
    totalDuration results =
      (results.map (fun test => durationOrZero test.duration)).foldl jsAdd (.finite 0) := by
  simp [totalDuration, List.foldl_map]

theorem durationOrZero_eq (duration : Option Int) :
    durationOrZero duration = duration.getD 0 := by
  cases duration with
  | none => rfl
  | some d =>
    by_cases h : d = 0
    · simp [durationOrZero, h]
    · simp [durationOrZero, h]

theorem hasFailures_iff (results : List TestResult) :
    hasFailures results = true ↔ 0 < failedTests results := by
  induction results with
  | nil => simp [hasFailures, failedTests]
  | cons test rest ih =>
    by_cases h : test.status = "failed"
    · simp [hasFailures, failedTests, List.filter_cons, h]
    · simp only [hasFailures, failedTests] at ih
      simp [hasFailures, failedTests, List.filter_cons, h, ih]

theorem verifyExtensionFiles_missing (env : Env) (files : List String)
    (h : ∃ file ∈ files, env.existsSync (pathJoin extensionPath file) = false) :
    ∃ file ∈ files, env.existsSync (pathJoin extensionPath file) = false ∧
      verifyExtensionFiles env files = .error ("Extension file missing: " ++ file) := by
  induction files with
  | nil => simp at h
  | cons file rest ih =>
    by_cases hf : env.existsSync (pathJoin extensionPath file) = false
    · exact ⟨file, by simp, hf, by simp [verifyExtensionFiles, hf]; rfl⟩
    · have hrest : ∃ f ∈ rest, env.existsSync (pathJoin extensionPath f) = false := by
        obtain ⟨f, hmem, hfalse⟩ := h
        rcases List.mem_cons.mp hmem with rfl | hmem
        · exact absurd hfalse hf
        · exact ⟨f, hmem, hfalse⟩
      obtain ⟨f, hmem, hfalse, hv⟩ := ih hrest
      refine ⟨f, List.mem_cons_of_mem _ hmem, hfalse, ?_⟩
      simp only [Bool.not_eq_false] at hf
      simp [verifyExtensionFiles, hf, hv]

theorem verifyExtensionFiles_present (env : Env) (files : List String)
    (h : ∀ file ∈ files, env.existsSync (pathJoin extensionPath file) = true) :
    verifyExtensionFiles env files = .ok () := by
  induction files with
  | nil => rfl
  | cons file rest ih =>
    have hf := h file (by simp)
    have hrest := ih (fun f hmem => h f (List.mem_cons_of_mem _ hmem))
    simp [verifyExtensionFiles, hf, hrest]

/-! ## Aggregation (C1, C2, C3) -/

/-- C1: for every sequence of outcomes whose statuses are `passed` or `failed`
(the two values of the data model), the passed count plus the failed count
that the report shows is the number of outcomes, so the failed figure is
`results.length - passedTests results`. -/
theorem passed_add_failed_eq_length (results : List TestResult)
    (h : ∀ test ∈ results, test.status = "passed" ∨ test.status = "failed") :
    passedTests results + failedTests results = results.length ∧
    failedTests results = results.length - passedTests results ∧
    ∀ generatedOn, generateHtmlReport results generatedOn =
      htmlHead ++ toString results.length ++
      htmlAfterTotal ++ toString (passedTests results) ++
      htmlAfterPassed ++ toString (results.length - passedTests results) ++
      htmlAfterFailed ++ toString (totalDuration results) ++
      htmlAfterDuration ++ String.join (results.map renderTest) ++
      htmlAfterResults ++ generatedOn ++ htmlTail := by
  have hsum : passedTests results + failedTests results = results.length := by
    induction results with
    | nil => rfl
    | cons test rest ih =>
      have hrest := ih (fun t ht => h t (List.mem_cons_of_mem _ ht))
      simp only [passedTests, failedTests] at hrest ⊢
      rcases h test (by simp) with hp | hf
      · simp [List.filter_cons, hp]
        omega
      · simp [List.filter_cons, hf]
        omega
  have hfailed : failedTests results = results.length - passedTests results := by omega
  refine ⟨hsum, hfailed, fun generatedOn => ?_⟩
  rw [← hfailed]
  rfl

/-- Witness of C1 on the four outcomes `passed(10)`, `failed(5, "x")`,
`passed(0)`, `failed(20, "y")`: 2 passed and 2 failed out of 4. -/
theorem passed_add_failed_eq_length_witness :
    passedTests fourOutcomes = 2 ∧ failedTests fourOutcomes = 2 ∧ fourOutcomes.length = 4 ∧
    passedTests fourOutcomes + failedTests fourOutcomes = fourOutcomes.length ∧
    failedTests fourOutcomes = fourOutcomes.length - passedTests fourOutcomes :=
  have h := passed_add_failed_eq_length fourOutcomes (by decide)
  ⟨by decide, by decide, by decide, h.1, h.2.1⟩

/-- C2, as amended: when every partial sum of the durations stays within 2^53
in magnitude (the range in which double addition is exact), the total duration
that the report builder computes is the exact sum of the durations of the
outcomes, an absent or zero duration counting for 0; the suite initialization
outcome (duration 0) and any outcome without a duration add nothing. -/
theorem totalDuration_eq_sum (results : List TestResult)
    (h : ∀ k ≤ results.length,
      ((results.take k).map (fun (test : TestResult) => test.duration.getD 0)).sum.natAbs ≤ 2 ^ 53) :
    totalDuration results = .finite (results.map (fun test => test.duration.getD 0)).sum ∧
    (∀ message, totalDuration (results ++ [suiteInitializationFailure message]) =
      totalDuration results) ∧
    (∀ test, test.duration = none ∨ test.duration = some 0 →
      totalDuration (results ++ [test]) = totalDuration results) := by
  have hmap : ∀ rs : List TestResult,
      rs.map (fun test => durationOrZero test.duration) =
        rs.map (fun test => test.duration.getD 0) := by
    intro rs
    apply List.map_congr_left
    intro test _
    exact durationOrZero_eq test.duration
  have htotal : totalDuration results =
      .finite (results.map (fun test => test.duration.getD 0)).sum := by
    rw [totalDuration_eq_foldl, hmap, foldl_jsAdd_exact _ 0]
    · simp
    · intro k hk
      have := h k (by simpa using hk)
      simpa [List.map_take] using this
  have hzero : ∀ test : TestResult, durationOrZero test.duration = 0 →
      totalDuration (results ++ [test]) = totalDuration results := by
    intro test hd
    have hbound := h results.length (Nat.le_refl _)
    rw [List.take_length] at hbound
    have happend : totalDuration (results ++ [test]) =
        jsAdd (totalDuration results) (durationOrZero test.duration) := by
      simp [totalDuration, List.foldl_append]
    rw [happend, hd, htotal]
    simp only [jsAdd, add_zero]
    exact roundToDouble_exact _ hbound
  refine ⟨htotal, ?_, ?_⟩
  · intro message
    exact hzero _ (by simp [suiteInitializationFailure, durationOrZero])
  · intro test htest
    apply hzero
    rcases htest with hd | hd <;> simp [hd, durationOrZero]

/-- Witness of C2 as amended: the durations 10, 5, 0, 20 stay within the exact
range and give 35; an outcome without a duration leaves the total at 35. -/
theorem totalDuration_eq_sum_witness :
    (∀ k ≤ fourOutcomes.length,
      ((fourOutcomes.take k).map (fun (test : TestResult) => test.duration.getD 0)).sum.natAbs ≤ 2 ^ 53) ∧
    totalDuration fourOutcomes = .finite 35 ∧
    totalDuration (fourOutcomes ++
      [{ name := "Extra", status := "passed", details := none, error := none,
         duration := none }]) = totalDuration fourOutcomes :=
  have hbound : ∀ k ≤ fourOutcomes.length,
      ((fourOutcomes.take k).map (fun (test : TestResult) => test.duration.getD 0)).sum.natAbs ≤ 2 ^ 53 := by
    decide
  have h := totalDuration_eq_sum fourOutcomes hbound
  ⟨hbound, h.1, h.2.2 _ (Or.inl rfl)⟩

/-- Counterexample to C2 as stated: for the durations 2^53 and 1 the sum of
line 340 is 9007199254740992 (the double nearest to 2^53 + 1, by the tie to the
even neighbour), while the exact sum of the durations is 9007199254740993. -/
theorem totalDuration_rounds_beyond_safe_range :
    totalDuration beyondSafeRange = .finite 9007199254740992 ∧
    (beyondSafeRange.map (fun test => test.duration.getD 0)).sum = 9007199254740993 ∧
    totalDuration beyondSafeRange ≠
      .finite (beyondSafeRange.map (fun test => test.duration.getD 0)).sum := by
  decide

/-- C3: the exit code that `runTests` passes to `process.exit` is non-zero
exactly when the failed count of the sequence is positive, and 0 exactly when
it is 0; when every outcome is passed the exit code is 0 and the failed figure
of the report reads `0`. -/
theorem exitCode_ne_zero_iff (results : List TestResult) :
    (exitCode results ≠ 0 ↔ 0 < failedTests results) ∧
    (exitCode results = 0 ↔ failedTests results = 0) ∧
    (exitCode results = 0 ∨ exitCode results = 1) ∧
    ((∀ test ∈ results, test.status = "passed") →
      exitCode results = 0 ∧ failedTests results = 0 ∧
      toString (failedTests results) = "0") ∧
    (∀ env out, runTests env = .ok out → out.exitCode = exitCode out.testResults) := by
  have hiff := hasFailures_iff results
  have hallPassed : (∀ test ∈ results, test.status = "passed") → failedTests results = 0 := by
    intro hall
    simp only [failedTests, List.length_eq_zero, List.filter_eq_nil_iff]
    intro test hmem
    simp [hall test hmem]
  refine ⟨?_, ?_, ?_, ?_, ?_⟩
  · by_cases hf : hasFailures results = true
    · simp [exitCode, hf, hiff.mp hf]
    · have : ¬ 0 < failedTests results := fun hpos => hf (hiff.mpr hpos)
      simp [exitCode, hf, this]
  · by_cases hf : hasFailures results = true
    · have := hiff.mp hf
      simp [exitCode, hf]
      omega
    · have : ¬ 0 < failedTests results := fun hpos => hf (hiff.mpr hpos)
      simp [exitCode, hf]
      omega
  · by_cases hf : hasFailures results = true <;> simp [exitCode, hf]
  · intro hall
    have hzero := hallPassed hall
    have hnot : ¬ hasFailures results = true := fun hf => by
      have := hiff.mp hf
      omega
    refine ⟨by simp [exitCode, hnot], hzero, ?_⟩
    rw [hzero]
    rfl
  · intro env out hout
    cases hclose : closeBrowser env with
    | error e => simp [runTests, hclose, bind, Except.bind] at hout
    | ok u =>
      simp [runTests, hclose, bind, Except.bind, pure, Except.pure] at hout
      rw [← hout]

/-- Witness of C3: two passed outcomes give exit code 0 and a failed figure `0`;
the four outcomes with two failures give exit code 1. -/
theorem exitCode_ne_zero_iff_witness :
    (exitCode allPassed = 0 ∧ failedTests allPassed = 0 ∧
      toString (failedTests allPassed) = "0") ∧
    (exitCode fourOutcomes ≠ 0 ↔ 0 < failedTests fourOutcomes) ∧
    exitCode fourOutcomes = 1 :=
  ⟨(exitCode_ne_zero_iff allPassed).2.2.2.1 (by decide),
    (exitCode_ne_zero_iff fourOutcomes).1, by decide⟩

/-! ## Shape of the outcomes of the checks -/

theorem testExtensionLoadingTry_ok (env : Env) (browser : Browser) (startTime : Int)
    (result : TestResult) (h : testExtensionLoadingTry env browser startTime = .ok result) :
    ∃ details duration, result = passedResult "Extension Loading" details duration := by
  unfold testExtensionLoadingTry at h
  cases ht : browser.targets 0 with
  | error e => simp [ht, bind, Except.bind] at h
  | ok targets =>
    simp only [ht, bind, Except.bind] at h
    split at h
    · simp [throw, throwThe, MonadExceptOf.throw] at h
    · simp [pure, Except.pure] at h
      exact ⟨_, _, h.symm⟩

theorem testBackgroundScriptTry_ok (env : Env) (browser : Browser) (startTime : Int)
    (result : TestResult) (h : testBackgroundScriptTry env browser startTime = .ok result) :
    ∃ details duration, result = passedResult "Background Script" details duration := by
  unfold testBackgroundScriptTry at h
  cases ht : browser.targets 1 with
  | error e => simp [ht, bind, Except.bind] at h
  | ok targets =>
    simp only [ht, bind, Except.bind] at h
    split at h
    · simp [throw, throwThe, MonadExceptOf.throw] at h
    · rename_i extensionTarget _
      cases hw : extensionTarget.worker with
      | error e => simp [hw] at h
      | ok worker =>
        cases he : worker.evaluate with
        | error e => simp [hw, he] at h
        | ok evaluated =>
          simp only [hw, he] at h
          split at h
          · simp [throw, throwThe, MonadExceptOf.throw] at h
          · simp [pure, Except.pure] at h
            exact ⟨_, _, h.symm⟩

theorem testTrackerBlockingTry_ok (env : Env) (browser : Browser) (startTime : Int)
    (result : TestResult) (h : testTrackerBlockingTry env browser startTime = .ok result) :
    ∃ details duration, result = passedResult "Tracker Blocking" details duration := by
  unfold testTrackerBlockingTry at h
  cases hp : browser.newPage with
  | error e => simp [hp, bind, Except.bind] at h
  | ok page =>
    cases hi : page.setRequestInterception with
    | error e => simp [hp, hi, bind, Except.bind] at h
    | ok u =>
      cases hg : page.goto with
      | error e => simp [hp, hi, hg, bind, Except.bind] at h
      | ok duringGoto =>
        cases hw : page.waitForTimeout with
        | error e => simp [hp, hi, hg, hw, bind, Except.bind] at h
        | ok duringWait =>
          cases hc : page.close with
          | error e => simp [hp, hi, hg, hw, hc, bind, Except.bind] at h
          | ok u2 =>
            simp [hp, hi, hg, hw, hc, bind, Except.bind, pure, Except.pure] at h
            exact ⟨_, _, h.symm⟩

theorem testTrackerUrlsLoadingTry_ok (env : Env) (path : String) (startTime : Int)
    (result : TestResult) (h : testTrackerUrlsLoadingTry env path startTime = .ok result) :
    ∃ details duration, result = passedResult "Tracker URLs Loading" details duration := by
  unfold testTrackerUrlsLoadingTry at h
  cases hr : env.readFileSync (pathJoin path "tracker-urls.txt") with
  | error e => simp [hr, bind, Except.bind] at h
  | ok trackerUrls =>
    simp only [hr, bind, Except.bind] at h
    split at h
    · simp [throw, throwThe, MonadExceptOf.throw] at h
    · simp [pure, Except.pure] at h
      exact ⟨_, _, h.symm⟩

/-- Each check returns its passed literal or its failed literal. -/
theorem testExtensionLoading_shape (env : Env) (browser : Browser) :
    (∃ details duration,
      testExtensionLoading env browser = passedResult "Extension Loading" details duration) ∨
    (∃ message duration,
      testExtensionLoading env browser = failedResult "Extension Loading" message duration) := by
  simp only [testExtensionLoading]
  cases h : testExtensionLoadingTry env browser (env.dateNow 0) with
  | error message => exact Or.inr ⟨message, _, rfl⟩
  | ok result => exact Or.inl (testExtensionLoadingTry_ok env browser _ result h)

theorem testBackgroundScript_shape (env : Env) (browser : Browser) :
    (∃ details duration,
      testBackgroundScript env browser = passedResult "Background Script" details duration) ∨
    (∃ message duration,
      testBackgroundScript env browser = failedResult "Background Script" message duration) := by
  simp only [testBackgroundScript]
  cases h : testBackgroundScriptTry env browser (env.dateNow 2) with
  | error message => exact Or.inr ⟨message, _, rfl⟩
  | ok result => exact Or.inl (testBackgroundScriptTry_ok env browser _ result h)

theorem testTrackerBlocking_shape (env : Env) (browser : Browser) :
    (∃ details duration,
      testTrackerBlocking env browser = passedResult "Tracker Blocking" details duration) ∨
    (∃ message duration,
      testTrackerBlocking env browser = failedResult "Tracker Blocking" message duration) := by
  simp only [testTrackerBlocking]
  cases h : testTrackerBlockingTry env browser (env.dateNow 4) with
  | error message => exact Or.inr ⟨message, _, rfl⟩
  | ok result => exact Or.inl (testTrackerBlockingTry_ok env browser _ result h)

theorem testTrackerUrlsLoading_shape (env : Env) (browser : Browser) (path : String) :
    (∃ details duration,
      testTrackerUrlsLoading env browser path =
        passedResult "Tracker URLs Loading" details duration) ∨
    (∃ message duration,
      testTrackerUrlsLoading env browser path =
        failedResult "Tracker URLs Loading" message duration) := by
  simp only [testTrackerUrlsLoading]
  cases h : testTrackerUrlsLoadingTry env path (env.dateNow 6) with
  | error message => exact Or.inr ⟨message, _, rfl⟩
  | ok result => exact Or.inl (testTrackerUrlsLoadingTry_ok env path _ result h)

theorem passedResult_invariant (name details : String) (duration : Int) :
    (passedResult name details duration).Invariant := by
  simp [TestResult.Invariant, passedResult]

theorem failedResult_invariant (name message : String) (duration : Int) :
    (failedResult name message duration).Invariant := by
  simp [TestResult.Invariant, failedResult]

theorem invariant_of_shape (test : TestResult) (name : String)
    (h : (∃ details duration, test = passedResult name details duration) ∨
      (∃ message duration, test = failedResult name message duration)) :
    test.Invariant := by
  rcases h with ⟨details, duration, rfl⟩ | ⟨message, duration, rfl⟩
  · exact passedResult_invariant _ _ _
  · exact failedResult_invariant _ _ _

theorem name_of_shape (test : TestResult) (name : String)
    (h : (∃ details duration, test = passedResult name details duration) ∨
      (∃ message duration, test = failedResult name message duration)) :
    test.name = name := by
  rcases h with ⟨details, duration, rfl⟩ | ⟨message, duration, rfl⟩ <;> rfl

/-- The two ways `collectResults` ends: the suite initialization entry alone, or
the four checks in order. -/
theorem collectResults_cases (env : Env) :
    (∃ message, collectResults env = [suiteInitializationFailure message] ∧
      (verifyExtensionFiles env requiredFiles = .error message ∨
        (verifyExtensionFiles env requiredFiles = .ok () ∧ env.launch = .error message))) ∨
    (∃ browser, verifyExtensionFiles env requiredFiles = .ok () ∧ env.launch = .ok browser ∧
      collectResults env =
        [testExtensionLoading env browser, testBackgroundScript env browser,
          testTrackerBlocking env browser,
          testTrackerUrlsLoading env browser extensionPath]) := by
  unfold collectResults
  cases hv : verifyExtensionFiles env requiredFiles with
  | error message => exact Or.inl ⟨message, by simp, Or.inl rfl⟩
  | ok u =>
    cases hl : env.launch with
    | error message => exact Or.inl ⟨message, by simp, Or.inr ⟨rfl, rfl⟩⟩
    | ok browser => exact Or.inr ⟨browser, rfl, rfl, by simp⟩

/-- Every outcome that the runner hands to the report builder has one of the two
statuses of the data model. -/
theorem collectResults_status (env : Env) :
    ∀ test ∈ collectResults env, test.status = "passed" ∨ test.status = "failed" := by
  have hstatus : ∀ (test : TestResult) (name : String),
      ((∃ details duration, test = passedResult name details duration) ∨
        (∃ message duration, test = failedResult name message duration)) →
      test.status = "passed" ∨ test.status = "failed" := by
    intro test name h
    rcases h with ⟨details, duration, rfl⟩ | ⟨message, duration, rfl⟩
    · exact Or.inl rfl
    · exact Or.inr rfl
  intro test hmem
  rcases collectResults_cases env with ⟨message, h, _⟩ | ⟨browser, _, _, h⟩
  · rw [h] at hmem
    simp only [List.mem_singleton] at hmem
    rw [hmem]
    exact Or.inr rfl
  · rw [h] at hmem
    simp only [List.mem_cons, List.mem_singleton, List.not_mem_nil, or_false] at hmem
    rcases hmem with rfl | rfl | rfl | rfl
    · exact hstatus _ _ (testExtensionLoading_shape env browser)
    · exact hstatus _ _ (testBackgroundScript_shape env browser)
    · exact hstatus _ _ (testTrackerBlocking_shape env browser)
    · exact hstatus _ _ (testTrackerUrlsLoading_shape env browser extensionPath)

theorem runTests_testResults (env : Env) (out : RunOutput) (h : runTests env = .ok out) :
    out.testResults = collectResults env := by
  cases hclose : closeBrowser env with
  | error e => simp [runTests, hclose, bind, Except.bind] at h
  | ok u =>
    simp [runTests, hclose, bind, Except.bind, pure, Except.pure] at h
    rw [← h]

/-! ## The runner (C4, C5, C6, C10) -/

/-- C4: when one of the required extension files is missing, the runner returns
exactly one outcome, the failed `Test Suite Initialization` entry whose error
text names a missing file; the report builder then counts one failure and the
run completes with exit code 1. -/
theorem missing_file_single_failure (env : Env)
    (h : ∃ file ∈ requiredFiles, env.existsSync (pathJoin extensionPath file) = false) :
    ∃ file ∈ requiredFiles, env.existsSync (pathJoin extensionPath file) = false ∧
      collectResults env =
        [{ name := "Test Suite Initialization", status := "failed", details := none,
           error := some ("Extension file missing: " ++ file), duration := some 0 }] ∧
      failedTests (collectResults env) = 1 ∧
      exitCode (collectResults env) = 1 ∧
      runTests env = .ok {
        testResults := collectResults env
        resultsJson := jsonStringify (resultsValue (collectResults env))
        htmlReport := generateHtmlReport (collectResults env) env.toLocaleString
        exitCode := 1 } := by
  obtain ⟨file, hmem, hfalse, hv⟩ := verifyExtensionFiles_missing env requiredFiles h
  have hcollect : collectResults env =
      [{ name := "Test Suite Initialization", status := "failed", details := none,
         error := some ("Extension file missing: " ++ file), duration := some 0 }] := by
    simp [collectResults, hv, suiteInitializationFailure]
  have hexit : exitCode (collectResults env) = 1 := by
    rw [hcollect]
    simp [exitCode, hasFailures]
  refine ⟨file, hmem, hfalse, hcollect, ?_, hexit, ?_⟩
  · rw [hcollect]
    simp [failedTests]
  · simp [runTests, closeBrowser, generateReports, hv, bind, Except.bind, pure, Except.pure,
      hexit]

/-- Witness of C4: with `tracking-blocker.js` not staged the run yields the single
entry naming that file, one failure and exit code 1. -/
theorem missing_file_single_failure_witness :
    (∃ file ∈ requiredFiles,
      envMissingFile.existsSync (pathJoin extensionPath file) = false) ∧
    collectResults envMissingFile =
      [{ name := "Test Suite Initialization", status := "failed", details := none,
         error := some "Extension file missing: tracking-blocker.js", duration := some 0 }] ∧
    ∃ file ∈ requiredFiles,
      envMissingFile.existsSync (pathJoin extensionPath file) = false ∧
      collectResults envMissingFile =
        [{ name := "Test Suite Initialization", status := "failed", details := none,
           error := some ("Extension file missing: " ++ file), duration := some 0 }] ∧
      failedTests (collectResults envMissingFile) = 1 ∧
      exitCode (collectResults envMissingFile) = 1 ∧
      runTests envMissingFile = .ok {
        testResults := collectResults envMissingFile
        resultsJson := jsonStringify (resultsValue (collectResults envMissingFile))
        htmlReport :=
          generateHtmlReport (collectResults envMissingFile) envMissingFile.toLocaleString
        exitCode := 1 } :=
  have hmissing : ∃ file ∈ requiredFiles,
      envMissingFile.existsSync (pathJoin extensionPath file) = false :=
    ⟨"tracking-blocker.js", by decide, by decide⟩
  ⟨hmissing, by decide, missing_file_single_failure envMissingFile hmissing⟩

/-- C5: for every run (whatever files exist, whether the browser launches,
whatever each check does) the sequence of outcomes handed to the report builder
is not empty; a failure before any check runs leaves the
`Test Suite Initialization` failed outcome as its only element. -/
theorem collectResults_ne_nil (env : Env) :
    collectResults env ≠ [] ∧
    (∀ out, runTests env = .ok out → out.testResults ≠ []) ∧
    (∀ message, verifyExtensionFiles env requiredFiles = .error message →
      collectResults env =
        [{ name := "Test Suite Initialization", status := "failed", details := none,
           error := some message, duration := some 0 }]) ∧
    (∀ message, verifyExtensionFiles env requiredFiles = .ok () →
      env.launch = .error message →
      collectResults env =
        [{ name := "Test Suite Initialization", status := "failed", details := none,
           error := some message, duration := some 0 }]) := by
  have hne : collectResults env ≠ [] := by
    rcases collectResults_cases env with ⟨message, h, _⟩ | ⟨browser, _, _, h⟩ <;> simp [h]
  refine ⟨hne, ?_, ?_, ?_⟩
  · intro out hout
    rw [runTests_testResults env out hout]
    exact hne
  · intro message hv
    simp [collectResults, hv, suiteInitializationFailure]
  · intro message hv hl
    simp [collectResults, hv, hl, suiteInitializationFailure]

/-- Witness of C5: when Chrome does not start the run hands over exactly the
suite initialization entry carrying the launch error. -/
theorem collectResults_ne_nil_witness :
    verifyExtensionFiles envLaunchFails requiredFiles = .ok () ∧
    envLaunchFails.launch = .error "Failed to launch the browser process!" ∧
    collectResults envLaunchFails ≠ [] ∧
    collectResults envLaunchFails =
      [{ name := "Test Suite Initialization", status := "failed", details := none,
         error := some "Failed to launch the browser process!", duration := some 0 }] :=
  ⟨rfl, rfl, (collectResults_ne_nil envLaunchFails).1,
    (collectResults_ne_nil envLaunchFails).2.2.2 _ rfl rfl⟩

/-- C6: once setup succeeds (every required file exists and the browser
launched) the runner returns exactly four outcomes, named `Extension Loading`,
`Background Script`, `Tracker Blocking`, `Tracker URLs Loading` in that order,
whatever each check does; a check whose `try` block throws is recorded as the
failed outcome of that name carrying the thrown message, and the checks after
it still run. -/
theorem four_outcomes_after_setup (env : Env) (browser : Browser)
    (hfiles : ∀ file ∈ requiredFiles, env.existsSync (pathJoin extensionPath file) = true)
    (hlaunch : env.launch = .ok browser) :
    collectResults env =
      [testExtensionLoading env browser, testBackgroundScript env browser,
        testTrackerBlocking env browser, testTrackerUrlsLoading env browser extensionPath] ∧
    (collectResults env).length = 4 ∧
    (collectResults env).map (fun test => test.name) =
      ["Extension Loading", "Background Script", "Tracker Blocking", "Tracker URLs Loading"] ∧
    (∀ test ∈ collectResults env, test.status = "passed" ∨ test.status = "failed") ∧
    (∀ message, testExtensionLoadingTry env browser (env.dateNow 0) = .error message →
      testExtensionLoading env browser =
        { name := "Extension Loading", status := "failed", details := none,
          error := some message, duration := some (env.dateNow 1 - env.dateNow 0) }) ∧
    (∀ message, testBackgroundScriptTry env browser (env.dateNow 2) = .error message →
      testBackgroundScript env browser =
        { name := "Background Script", status := "failed", details := none,
          error := some message, duration := some (env.dateNow 3 - env.dateNow 2) }) ∧
    (∀ message, testTrackerBlockingTry env browser (env.dateNow 4) = .error message →
      testTrackerBlocking env browser =
        { name := "Tracker Blocking", status := "failed", details := none,
          error := some message, duration := some (env.dateNow 5 - env.dateNow 4) }) ∧
    (∀ message,
      testTrackerUrlsLoadingTry env extensionPath (env.dateNow 6) = .error message →
      testTrackerUrlsLoading env browser extensionPath =
        { name := "Tracker URLs Loading", status := "failed", details := none,
          error := some message, duration := some (env.dateNow 7 - env.dateNow 6) }) := by
  have hv := verifyExtensionFiles_present env requiredFiles hfiles
  have hcollect : collectResults env =
      [testExtensionLoading env browser, testBackgroundScript env browser,
        testTrackerBlocking env browser,
        testTrackerUrlsLoading env browser extensionPath] := by
    simp [collectResults, hv, hlaunch]
  have h1 := testExtensionLoading_shape env browser
  have h2 := testBackgroundScript_shape env browser
  have h3 := testTrackerBlocking_shape env browser
  have h4 := testTrackerUrlsLoading_shape env browser extensionPath
  have hstatus : ∀ (test : TestResult) (name : String),
      ((∃ details duration, test = passedResult name details duration) ∨
        (∃ message duration, test = failedResult name message duration)) →
      test.status = "passed" ∨ test.status = "failed" := by
    intro test name h
    rcases h with ⟨details, duration, rfl⟩ | ⟨message, duration, rfl⟩
    · exact Or.inl rfl
    · exact Or.inr rfl
  refine ⟨hcollect, by rw [hcollect]; rfl, ?_, ?_, ?_, ?_, ?_, ?_⟩
  · rw [hcollect]
    simp [name_of_shape _ _ h1, name_of_shape _ _ h2, name_of_shape _ _ h3,
      name_of_shape _ _ h4]
  · intro test hmem
    rw [hcollect] at hmem
    simp only [List.mem_cons, List.mem_singleton, List.not_mem_nil, or_false] at hmem
    rcases hmem with rfl | rfl | rfl | rfl
    · exact hstatus _ _ h1
    · exact hstatus _ _ h2
    · exact hstatus _ _ h3
    · exact hstatus _ _ h4
  · intro message hm
    simp only [testExtensionLoading, hm]
  · intro message hm
    simp only [testBackgroundScript, hm]
  · intro message hm
    simp only [testTrackerBlocking, hm]
  · intro message hm
    simp only [testTrackerUrlsLoading, hm]

/-- Witness of C6: with a browser whose every call rejects with `Target closed`,
the first three checks are recorded as failed with that message and the fourth
check still runs and passes. -/
theorem four_outcomes_after_setup_witness :
    (∀ file ∈ requiredFiles,
      envBrowserBroken.existsSync (pathJoin extensionPath file) = true) ∧
    envBrowserBroken.launch = .ok (brokenBrowser "Target closed") ∧
    collectResults envBrowserBroken =
      [ { name := "Extension Loading", status := "failed", details := none,
          error := some "Target closed", duration := some 3 },
        { name := "Background Script", status := "failed", details := none,
          error := some "Target closed", duration := some 3 },
        { name := "Tracker Blocking", status := "failed", details := none,
          error := some "Target closed", duration := some 3 },
        { name := "Tracker URLs Loading", status := "passed",
          details := some "Successfully loaded 2 tracker URLs", error := none,
          duration := some 3 } ] ∧
    (collectResults envBrowserBroken).length = 4 ∧
    (collectResults envBrowserBroken).map (fun test => test.name) =
      ["Extension Loading", "Background Script", "Tracker Blocking", "Tracker URLs Loading"] :=
  have h := four_outcomes_after_setup envBrowserBroken (brokenBrowser "Target closed")
    (by decide) rfl
  ⟨by decide, rfl, by decide, h.2.1, h.2.2.1⟩

/-- C10: every outcome the runner can produce (the result of
`testExtensionLoading`, `testBackgroundScript`, `testTrackerBlocking`,
`testTrackerUrlsLoading` on any browser, and the suite initialization entry)
satisfies the invariant of the data model: `error` is set exactly when the
status is `failed`, and `details` is set only when the status is `passed`. -/
theorem runner_outcomes_invariant (env : Env) :
    (∀ browser : Browser,
      (testExtensionLoading env browser).Invariant ∧
      (testBackgroundScript env browser).Invariant ∧
      (testTrackerBlocking env browser).Invariant ∧
      ∀ path, (testTrackerUrlsLoading env browser path).Invariant) ∧
    (∀ message, (suiteInitializationFailure message).Invariant) ∧
    (∀ test ∈ collectResults env,
      (test.error.isSome = true ↔ test.status = "failed") ∧
      (test.details.isSome = true → test.status = "passed")) := by
  have hsuite : ∀ message, (suiteInitializationFailure message).Invariant := by
    intro message
    simp [TestResult.Invariant, suiteInitializationFailure]
  have hchecks : ∀ browser : Browser,
      (testExtensionLoading env browser).Invariant ∧
      (testBackgroundScript env browser).Invariant ∧
      (testTrackerBlocking env browser).Invariant ∧
      ∀ path, (testTrackerUrlsLoading env browser path).Invariant := fun browser =>
    ⟨invariant_of_shape _ _ (testExtensionLoading_shape env browser),
      invariant_of_shape _ _ (testBackgroundScript_shape env browser),
      invariant_of_shape _ _ (testTrackerBlocking_shape env browser),
      fun path => invariant_of_shape _ _ (testTrackerUrlsLoading_shape env browser path)⟩
  refine ⟨hchecks, hsuite, ?_⟩
  intro test hmem
  rcases collectResults_cases env with ⟨message, h, _⟩ | ⟨browser, _, _, h⟩
  · rw [h] at hmem
    simp only [List.mem_singleton] at hmem
    rw [hmem]
    exact hsuite message
  · rw [h] at hmem
    simp only [List.mem_cons, List.mem_singleton, List.not_mem_nil, or_false] at hmem
    rcases hmem with rfl | rfl | rfl | rfl
    · exact (hchecks browser).1
    · exact (hchecks browser).2.1
    · exact (hchecks browser).2.2.1
    · exact (hchecks browser).2.2.2 _

/-- Witness of C10: the fourth outcome of the run with the broken browser is the
passed `Tracker URLs Loading` entry, with `details` and without `error`; the
first is failed, with `error` and without `details`. -/
theorem runner_outcomes_invariant_witness :
    testTrackerUrlsLoading envBrowserBroken (brokenBrowser "Target closed") extensionPath ∈
      collectResults envBrowserBroken ∧
    (testTrackerUrlsLoading envBrowserBroken (brokenBrowser "Target closed")
      extensionPath).status = "passed" ∧
    (testTrackerUrlsLoading envBrowserBroken (brokenBrowser "Target closed")
      extensionPath).error = none ∧
    ((testTrackerUrlsLoading envBrowserBroken (brokenBrowser "Target closed")
        extensionPath).error.isSome = true ↔
      (testTrackerUrlsLoading envBrowserBroken (brokenBrowser "Target closed")
        extensionPath).status = "failed") ∧
    (testExtensionLoading envBrowserBroken (brokenBrowser "Target closed")).Invariant :=
  have hmem : testTrackerUrlsLoading envBrowserBroken (brokenBrowser "Target closed")
      extensionPath ∈ collectResults envBrowserBroken := by decide
  ⟨hmem, by decide, by decide,
    ((runner_outcomes_invariant envBrowserBroken).2.2 _ hmem).1,
    ((runner_outcomes_invariant envBrowserBroken).1 (brokenBrowser "Target closed")).1⟩

/-! ## Rendering (C8, C9) -/

theorem parseStringChars_plain (read rest : List Char) (c : Char)
    (hq : c ≠ '\"') (hb : c ≠ '\\') (hc : ¬ c.toNat < 0x20) :
    parseStringChars read (c :: rest) = parseStringChars (c :: read) rest := by
  conv => lhs; unfold parseStringChars
  simp [hq, hb, hc]

theorem parseStringChars_simple (read rest : List Char) (e escaped : Char)
    (hu : e ≠ 'u') (h : simpleEscape e = some escaped) :
    parseStringChars read ('\\' :: e :: rest) = parseStringChars (escaped :: read) rest := by
  conv => lhs; unfold parseStringChars
  simp [hu, h]

theorem hexValue4_unicodeEscape (n : Fin 32) :
    hexValue4 (Nat.digitChar (n.val / 4096 % 16)) (Nat.digitChar (n.val / 256 % 16))
      (Nat.digitChar (n.val / 16 % 16)) (Nat.digitChar (n.val % 16)) = some n.val := by
  revert n
  decide

theorem parseStringChars_unicode (read rest : List Char) (c : Char) (hc : c.toNat < 0x20) :
    parseStringChars read (unicodeEscape c ++ rest) = parseStringChars (c :: read) rest := by
  have hhex := hexValue4_unicodeEscape ⟨c.toNat, hc⟩
  simp only at hhex
  have hnot : ¬ (0xD800 ≤ c.toNat ∧ c.toNat < 0xE000) := by omega
  conv => lhs; unfold parseStringChars
  simp [unicodeEscape, hhex, hnot, Char.ofNat_toNat]

theorem parseStringChars_quoteChar (read rest : List Char) (c : Char) :
    parseStringChars read (quoteChar c ++ rest) = parseStringChars (c :: read) rest := by
  unfold quoteChar
  split
  · rename_i h; subst h; exact parseStringChars_simple _ _ _ _ (by decide) (by decide)
  split
  · rename_i h; subst h; exact parseStringChars_simple _ _ _ _ (by decide) (by decide)
  split
  · rename_i h; subst h; exact parseStringChars_simple _ _ _ _ (by decide) (by decide)
  split
  · rename_i h; subst h; exact parseStringChars_simple _ _ _ _ (by decide) (by decide)
  split
  · rename_i h; subst h; exact parseStringChars_simple _ _ _ _ (by decide) (by decide)
  split
  · rename_i h; subst h; exact parseStringChars_simple _ _ _ _ (by decide) (by decide)
  split
  · rename_i h; subst h; exact parseStringChars_simple _ _ _ _ (by decide) (by decide)
  split
  · rename_i h; exact parseStringChars_unicode _ _ _ h
  · rename_i h1 h2 h3 h4 h5 h6 h7 h8
    exact parseStringChars_plain _ _ _ h6 h7 h8

theorem parseStringChars_quoteChars (cs read rest : List Char) :
    parseStringChars read (quoteChars cs ++ '\"' :: rest) =
      some (⟨read.reverse ++ cs⟩, rest) := by
  induction cs generalizing read with
  | nil =>
    conv => lhs; unfold parseStringChars
    simp [quoteChars]
  | cons c cs ih =>
    simp only [quoteChars, List.append_assoc]
    rw [parseStringChars_quoteChar, ih]
    simp

theorem parseStringChars_quoteJSONString (s : String) (rest : List Char) :
    ∃ after, quoteJSONString s ++ rest = '\"' :: after ∧
      parseStringChars [] after = some (s, rest) := by
  refine ⟨quoteChars s.data ++ '\"' :: rest, ?_, ?_⟩
  · simp [quoteJSONString]
  · rw [parseStringChars_quoteChars]
    simp

/-! ## JSON numbers -/

theorem digitChar_spec (d : Fin 10) :
    (Nat.digitChar d.val).isDigit = true ∧
    (Nat.digitChar d.val).toNat - '0'.toNat = d.val ∧
    (Nat.digitChar d.val = '0' ↔ d.val = 0) ∧
    Nat.digitChar d.val ≠ '-' := by
  revert d
  decide

theorem parseDigits_toDigitsCore (fuel : Nat) :
    ∀ (n : Nat) (ds tail : List Char), n < fuel →
      parseDigits 0 (Nat.toDigitsCore 10 fuel n ds ++ tail) = parseDigits n (ds ++ tail) := by
  induction fuel with
  | zero => intro n ds tail h; omega
  | succ fuel ih =>
    intro n ds tail h
    have hd := digitChar_spec ⟨n % 10, Nat.mod_lt _ (by decide)⟩
    simp only at hd
    unfold Nat.toDigitsCore
    by_cases hz : n / 10 = 0
    · simp only [hz, if_true, List.cons_append]
      rw [parseDigits]
      simp only [hd.1, hd.2.1, if_true]
      congr 1
      omega
    · simp only [hz, if_false]
      rw [ih (n / 10) _ tail (by omega)]
      simp only [List.cons_append]
      rw [parseDigits]
      simp only [hd.1, hd.2.1, if_true]
      congr 1
      omega

theorem toDigitsCore_head (fuel : Nat) :
    ∀ (n : Nat) (ds : List Char), n < fuel → 0 < n →
      ∃ c rest, Nat.toDigitsCore 10 fuel n ds = c :: rest ∧ c.isDigit = true ∧ c ≠ '0' ∧
        c ≠ '-' := by
  induction fuel with
  | zero => intro n ds h; omega
  | succ fuel ih =>
    intro n ds h hpos
    have hd := digitChar_spec ⟨n % 10, Nat.mod_lt _ (by decide)⟩
    simp only at hd
    unfold Nat.toDigitsCore
    by_cases hz : n / 10 = 0
    · have hn : n % 10 ≠ 0 := by omega
      simp only [hz, if_true]
      exact ⟨_, _, rfl, hd.1, fun h0 => hn (hd.2.2.1.mp h0), hd.2.2.2⟩
    · simp only [hz, if_false]
      exact ih (n / 10) _ (by omega) (by omega)

theorem parseDigits_end (n : Nat) (tail : List Char) (h : EndsNumber tail) :
    parseDigits n tail = (n, tail) := by
  cases tail with
  | nil => rfl
  | cons c rest =>
    rw [parseDigits]
    simp [(h c rest rfl).1]

theorem startsFractionOrExponent_end (tail : List Char) (h : EndsNumber tail) :
    startsFractionOrExponent tail = false := by
  cases tail with
  | nil => rfl
  | cons c rest =>
    obtain ⟨_, h1, h2, h3⟩ := h c rest rfl
    simp [startsFractionOrExponent, h1, h2, h3]

theorem parseUnsigned_toDigits (n : Nat) (tail : List Char) (h : EndsNumber tail) :
    parseUnsigned (Nat.toDigits 10 n ++ tail) = some (n, tail) ∧
    ∃ c rest, Nat.toDigits 10 n ++ tail = c :: rest ∧ c ≠ '-' ∧ c.isDigit = true := by
  by_cases hz : n = 0
  · subst hz
    have h0 : Nat.toDigits 10 0 = ['0'] := rfl
    rw [h0]
    exact ⟨by simp [parseUnsigned], '0', tail, rfl, by decide, by decide⟩
  · obtain ⟨c, rest, hcs, hdigit, hne0, hminus⟩ :=
      toDigitsCore_head (n + 1) n [] (by omega) (by omega)
    have hvalue := parseDigits_toDigitsCore (n + 1) n [] tail (by omega)
    unfold Nat.toDigits
    rw [hcs] at hvalue ⊢
    refine ⟨?_, c, rest ++ tail, by simp, hminus, hdigit⟩
    simp only [List.cons_append, List.nil_append] at hvalue ⊢
    rw [parseDigits] at hvalue
    simp only [hdigit, if_true, Nat.mul_zero, Nat.zero_add] at hvalue
    simp only [parseUnsigned, hne0, if_false, hdigit, if_true]
    rw [hvalue, parseDigits_end n tail h]

theorem parseNumber_toString (i : Int) (tail : List Char) (h : EndsNumber tail) :
    parseNumber ((toString i).data ++ tail) = some (i, tail) := by
  have hfrac := startsFractionOrExponent_end tail h
  cases i with
  | ofNat m =>
    obtain ⟨hparse, c, rest, hcs, hminus, _⟩ := parseUnsigned_toDigits m tail h
    have hdata : (toString (Int.ofNat m)).data = Nat.toDigits 10 m := rfl
    rw [hdata, hcs]
    rw [hcs] at hparse
    simp [parseNumber, hminus, hparse, hfrac]
  | negSucc m =>
    obtain ⟨hparse, _⟩ := parseUnsigned_toDigits (m + 1) tail h
    have hdata : (toString (Int.negSucc m)).data = '-' :: Nat.toDigits 10 (m + 1) := rfl
    rw [hdata]
    simp only [List.cons_append, parseNumber, if_true, hparse, hfrac]
    simp [Int.negSucc_eq]

theorem toString_int_head (i : Int) (tail : List Char) :
    ∃ c rest, (toString i).data ++ tail = c :: rest ∧ (c = '-' ∨ c.isDigit = true) := by
  cases i with
  | ofNat m =>
    have hdata : (toString (Int.ofNat m)).data = Nat.toDigits 10 m := rfl
    by_cases hz : m = 0
    · subst hz
      exact ⟨'0', tail, rfl, Or.inr (by decide)⟩
    · obtain ⟨c, rest, hcs, hdigit, _, _⟩ :=
        toDigitsCore_head (m + 1) m [] (by omega) (by omega)
      refine ⟨c, rest ++ tail, ?_, Or.inr hdigit⟩
      rw [hdata, Nat.toDigits, hcs]
      rfl
  | negSucc m =>
    have hdata : (toString (Int.negSucc m)).data = '-' :: Nat.toDigits 10 (m + 1) := rfl
    exact ⟨'-', Nat.toDigits 10 (m + 1) ++ tail, by rw [hdata]; rfl, Or.inl rfl⟩

/-! ## JSON structure -/

theorem skipWhiteSpace_append (ws cs : List Char) (h : AllWhiteSpace ws) :
    skipWhiteSpace (ws ++ cs) = skipWhiteSpace cs := by
  induction ws with
  | nil => rfl
  | cons c ws ih =>
    have hc : isJsonWhiteSpace c = true := h c (by simp)
    have hws : AllWhiteSpace ws := fun x hx => h x (List.mem_cons_of_mem _ hx)
    simp [skipWhiteSpace, hc, ih hws]

theorem skipWhiteSpace_cons (c : Char) (cs : List Char) (h : isJsonWhiteSpace c = false) :
    skipWhiteSpace (c :: cs) = c :: cs := by
  simp [skipWhiteSpace, h]

theorem skipWhiteSpace_append_cons (ws cs : List Char) (c : Char) (h : AllWhiteSpace ws)
    (hc : isJsonWhiteSpace c = false) :
    skipWhiteSpace (ws ++ c :: cs) = c :: cs := by
  rw [skipWhiteSpace_append ws _ h, skipWhiteSpace_cons c cs hc]

theorem allWhiteSpace_nil : AllWhiteSpace [] := fun _ h => by simp at h

theorem allWhiteSpace_cons (c : Char) (ws : List Char) (hc : isJsonWhiteSpace c = true)
    (h : AllWhiteSpace ws) : AllWhiteSpace (c :: ws) := by
  intro x hx
  rcases List.mem_cons.mp hx with rfl | hx
  · exact hc
  · exact h x hx

theorem allWhiteSpace_append (ws ws2 : List Char) (h : AllWhiteSpace ws)
    (h2 : AllWhiteSpace ws2) : AllWhiteSpace (ws ++ ws2) := by
  intro x hx
  rcases List.mem_append.mp hx with hx | hx
  · exact h x hx
  · exact h2 x hx

theorem allWhiteSpace_jsonGap : AllWhiteSpace jsonGap := by
  intro c hc
  simp only [jsonGap, List.mem_cons, List.mem_singleton, List.not_mem_nil, or_false] at hc
  rcases hc with rfl | rfl <;> rfl

theorem endsNumber_of_head (c : Char) (cs : List Char)
    (h : c.isDigit = false ∧ c ≠ '.' ∧ c ≠ 'e' ∧ c ≠ 'E') : EndsNumber (c :: cs) := by
  intro x rest hx
  simp only [List.cons.injEq] at hx
  rw [← hx.1]
  exact h

theorem whiteSpace_endsNumber (c : Char) (h : isJsonWhiteSpace c = true) :
    c.isDigit = false ∧ c ≠ '.' ∧ c ≠ 'e' ∧ c ≠ 'E' := by
  simp only [isJsonWhiteSpace, Bool.or_eq_true, beq_iff_eq] at h
  rcases h with ((rfl | rfl) | rfl) | rfl <;> decide

theorem endsNumber_whiteSpace_append (ws cs : List Char) (c : Char) (h : AllWhiteSpace ws)
    (hc : c.isDigit = false ∧ c ≠ '.' ∧ c ≠ 'e' ∧ c ≠ 'E') :
    EndsNumber (ws ++ c :: cs) := by
  cases ws with
  | nil => exact endsNumber_of_head c cs hc
  | cons w ws => exact endsNumber_of_head w _ (whiteSpace_endsNumber w (h w (by simp)))

theorem number_head_spec (c : Char) (h : c = '-' ∨ c.isDigit = true) :
    isJsonWhiteSpace c = false ∧ c ≠ '\"' ∧ c ≠ '[' ∧ c ≠ '\x7b' ∧ c ≠ 'n' ∧ c ≠ 't' ∧
      c ≠ 'f' := by
  rcases h with rfl | h
  · decide
  · refine ⟨?_, ?_, ?_, ?_, ?_, ?_, ?_⟩
    · cases hw : isJsonWhiteSpace c with
      | false => rfl
      | true =>
        have := (whiteSpace_endsNumber c hw).1
        rw [h] at this
        exact absurd this (by decide)
    all_goals
      rintro rfl
      revert h
      decide

theorem parseValue_scalar (fuel : Nat) (indent ws tail : List Char) (value : JsonValue)
    (hv : value.isScalar = true) (hws : AllWhiteSpace ws) (htail : EndsNumber tail) :
    parseValue (fuel + 1) (ws ++ serializeJSONProperty indent value ++ tail) =
      some (value, tail) := by
  cases value with
  | string s =>
    obtain ⟨after, hcs, hparse⟩ := parseStringChars_quoteJSONString s tail
    rw [parseValue, serializeJSONProperty, List.append_assoc, hcs,
      skipWhiteSpace_append_cons ws after '\"' hws (by decide)]
    simp [hparse]
  | number n =>
    obtain ⟨c, rest, hcs, hhead⟩ := toString_int_head n tail
    obtain ⟨h0, h1, h2, h3, h4, h5, h6⟩ := number_head_spec c hhead
    have hnum := parseNumber_toString n tail htail
    rw [hcs] at hnum
    rw [parseValue, serializeJSONProperty, List.append_assoc, hcs,
      skipWhiteSpace_append_cons ws rest c hws h0]
    simp [h1, h2, h3, h4, h5, h6, hnum]
  | null => simp [JsonValue.isScalar] at hv
  | bool b => simp [JsonValue.isScalar] at hv
  | array elements => simp [JsonValue.isScalar] at hv
  | object members => simp [JsonValue.isScalar] at hv

theorem parseMembers_flat (indent : List Char) (hindent : AllWhiteSpace indent)
    (members : List (String × JsonValue)) :
    ∀ (fuel : Nat) (ws ws2 tail : List Char), members ≠ [] →
      (∀ entry ∈ members, entry.2.isScalar = true) → members.length + 1 ≤ fuel →
      AllWhiteSpace ws → AllWhiteSpace ws2 →
      parseMembers fuel
        (ws ++ joinWith ([',', '\n'] ++ indent) (serializeMembers indent members) ++ ws2 ++
          '\x7d' :: tail) = some (members, tail) := by
  induction members with
  | nil => intro fuel ws ws2 tail h; exact absurd rfl h
  | cons member rest ih =>
    intro fuel ws ws2 tail _ hscalar hfuel hws hws2
    obtain ⟨key, value⟩ := member
    have hvalue : value.isScalar = true := hscalar (key, value) (by simp)
    obtain ⟨fuel, rfl⟩ : ∃ f, fuel = f + 1 := ⟨fuel - 1, by simp at hfuel; omega⟩
    obtain ⟨fuel, rfl⟩ : ∃ f, fuel = f + 1 := ⟨fuel - 1, by simp at hfuel; omega⟩
    cases rest with
    | nil =>
      obtain ⟨after, hcs, hparse⟩ := parseStringChars_quoteJSONString key
        ([':', ' '] ++ serializeJSONProperty indent value ++ ws2 ++ '\x7d' :: tail)
      have htext : ws ++ joinWith ([',', '\n'] ++ indent)
          (serializeMembers indent [(key, value)]) ++ ws2 ++ '\x7d' :: tail =
          ws ++ '\"' :: after := by
        rw [← hcs]
        simp [serializeMembers, joinWith]
      have hval := parseValue_scalar fuel indent [' '] (ws2 ++ '\x7d' :: tail) value hvalue
        (allWhiteSpace_cons _ _ (by decide) allWhiteSpace_nil)
        (endsNumber_whiteSpace_append ws2 tail '\x7d' hws2 (by decide))
      rw [htext, parseMembers, skipWhiteSpace_append_cons ws after '\"' hws (by decide)]
      simp only [hparse]
      simp only [List.cons_append, List.nil_append, List.append_assoc] at hval ⊢
      rw [skipWhiteSpace_cons ':' _ (by decide)]
      simp only [hval]
      rw [skipWhiteSpace_append_cons ws2 tail '\x7d' hws2 (by decide)]
      rfl
    | cons next more =>
      obtain ⟨after, hcs, hparse⟩ := parseStringChars_quoteJSONString key
        ([':', ' '] ++ serializeJSONProperty indent value ++ ',' :: ('\n' :: indent ++
          joinWith ([',', '\n'] ++ indent) (serializeMembers indent (next :: more)) ++ ws2 ++
          '\x7d' :: tail))
      have htext : ws ++ joinWith ([',', '\n'] ++ indent)
          (serializeMembers indent ((key, value) :: next :: more)) ++ ws2 ++ '\x7d' :: tail =
          ws ++ '\"' :: after := by
        rw [← hcs]
        simp [serializeMembers, joinWith]
      have hval := parseValue_scalar fuel indent [' ']
        (',' :: ('\n' :: indent ++
          joinWith ([',', '\n'] ++ indent) (serializeMembers indent (next :: more)) ++ ws2 ++
          '\x7d' :: tail)) value hvalue
        (allWhiteSpace_cons _ _ (by decide) allWhiteSpace_nil)
        (endsNumber_of_head ',' _ (by decide))
      have hrest := ih (fuel + 1) ('\n' :: indent) ws2 tail (by simp)
        (fun entry hentry => hscalar entry (List.mem_cons_of_mem _ hentry))
        (by simp at hfuel ⊢; omega)
        (allWhiteSpace_cons _ _ (by decide) hindent) hws2
      rw [htext, parseMembers, skipWhiteSpace_append_cons ws after '\"' hws (by decide)]
      simp only [hparse]
      simp only [List.cons_append, List.nil_append, List.append_assoc] at hval hrest ⊢
      rw [skipWhiteSpace_cons ':' _ (by decide)]
      simp only [hval]
      rw [skipWhiteSpace_cons ',' _ (by decide)]
      simp only [hrest]

theorem parseValue_flatObject (bound : Nat) (indent : List Char)
    (hindent : AllWhiteSpace indent) (value : JsonValue) (hflat : IsFlatObject bound value)
    (fuel : Nat) (hfuel : bound + 2 ≤ fuel) (ws tail : List Char) (hws : AllWhiteSpace ws) :
    parseValue fuel (ws ++ serializeJSONProperty indent value ++ tail) = some (value, tail) := by
  cases value with
  | object members =>
    cases members with
    | nil => exact absurd hflat (by simp [IsFlatObject])
    | cons member rest =>
      obtain ⟨hscalar, hlen⟩ := hflat
      obtain ⟨fuel, rfl⟩ : ∃ f, fuel = f + 1 := ⟨fuel - 1, by omega⟩
      obtain ⟨key, first⟩ := member
      have hinner : AllWhiteSpace (indent ++ jsonGap) :=
        allWhiteSpace_append _ _ hindent allWhiteSpace_jsonGap
      have hmembers := parseMembers_flat (indent ++ jsonGap) hinner ((key, first) :: rest) fuel
        ('\n' :: (indent ++ jsonGap)) ('\n' :: indent) tail (by simp) hscalar (by omega)
        (allWhiteSpace_cons _ _ (by decide) hinner)
        (allWhiteSpace_cons _ _ (by decide) hindent)
      obtain ⟨after, hcs, -⟩ := parseStringChars_quoteJSONString key
        ([':', ' '] ++ serializeJSONProperty (indent ++ jsonGap) first ++
          (match rest with
            | [] => []
            | next :: more => ([',', '\n'] ++ (indent ++ jsonGap)) ++
                joinWith ([',', '\n'] ++ (indent ++ jsonGap))
                  (serializeMembers (indent ++ jsonGap) (next :: more))) ++
          '\n' :: indent ++ '\x7d' :: tail)
      have hjoin : joinWith ([',', '\n'] ++ (indent ++ jsonGap))
          (serializeMembers (indent ++ jsonGap) ((key, first) :: rest)) ++
            '\n' :: indent ++ '\x7d' :: tail = '\"' :: after := by
        rw [← hcs]
        cases rest <;> simp [serializeMembers, joinWith]
      have hskip : skipWhiteSpace ('\n' :: (indent ++ jsonGap) ++
          joinWith ([',', '\n'] ++ (indent ++ jsonGap))
            (serializeMembers (indent ++ jsonGap) ((key, first) :: rest)) ++
            '\n' :: indent ++ '\x7d' :: tail) = '\"' :: after := by
        rw [List.append_assoc, List.append_assoc, ← List.append_assoc (joinWith _ _), hjoin]
        exact skipWhiteSpace_append_cons _ _ _
          (allWhiteSpace_cons _ _ (by decide) hinner) (by decide)
      have htext : ws ++ serializeJSONProperty indent (.object ((key, first) :: rest)) ++ tail =
          ws ++ '\x7b' :: ('\n' :: (indent ++ jsonGap) ++
          joinWith ([',', '\n'] ++ (indent ++ jsonGap))
            (serializeMembers (indent ++ jsonGap) ((key, first) :: rest)) ++
            '\n' :: indent ++ '\x7d' :: tail) := by
        simp [serializeJSONProperty]
      rw [htext, parseValue, skipWhiteSpace_append_cons ws _ '\x7b' hws (by decide)]
      simp only [hskip, hmembers]
      rfl
  | null => exact absurd hflat (by simp [IsFlatObject])
  | bool b => exact absurd hflat (by simp [IsFlatObject])
  | number n => exact absurd hflat (by simp [IsFlatObject])
  | string s => exact absurd hflat (by simp [IsFlatObject])
  | array elements => exact absurd hflat (by simp [IsFlatObject])

theorem serializeJSONProperty_flatObject_head (bound : Nat) (indent tail : List Char)
    (value : JsonValue) (hflat : IsFlatObject bound value) :
    ∃ after, serializeJSONProperty indent value ++ tail = '\x7b' :: after ∧
      4 ≤ (serializeJSONProperty indent value).length := by
  cases value with
  | object members =>
    cases members with
    | nil => exact absurd hflat (by simp [IsFlatObject])
    | cons member rest =>
      refine ⟨_, by simp only [serializeJSONProperty, List.cons_append, List.append_assoc]; rfl,
        ?_⟩
      simp only [serializeJSONProperty, List.length_append, List.length_cons, List.length_nil]
      omega
  | null => exact absurd hflat (by simp [IsFlatObject])
  | bool b => exact absurd hflat (by simp [IsFlatObject])
  | number n => exact absurd hflat (by simp [IsFlatObject])
  | string s => exact absurd hflat (by simp [IsFlatObject])
  | array elements => exact absurd hflat (by simp [IsFlatObject])

theorem parseElements_flatObjects (bound : Nat) (indent : List Char)
    (hindent : AllWhiteSpace indent) (elements : List JsonValue) :
    ∀ (fuel : Nat) (ws ws2 tail : List Char), elements ≠ [] →
      (∀ element ∈ elements, IsFlatObject bound element) →
      elements.length + bound + 2 ≤ fuel → AllWhiteSpace ws → AllWhiteSpace ws2 →
      parseElements fuel
        (ws ++ joinWith ([',', '\n'] ++ indent) (serializeElements indent elements) ++ ws2 ++
          ']' :: tail) = some (elements, tail) := by
  induction elements with
  | nil => intro fuel ws ws2 tail h; exact absurd rfl h
  | cons element rest ih =>
    intro fuel ws ws2 tail _ hflat hfuel hws hws2
    have helement : IsFlatObject bound element := hflat element (by simp)
    obtain ⟨fuel, rfl⟩ : ∃ f, fuel = f + 1 := ⟨fuel - 1, by simp at hfuel; omega⟩
    cases rest with
    | nil =>
      have hval := parseValue_flatObject bound indent hindent element helement fuel
        (by simp at hfuel; omega) ws (ws2 ++ ']' :: tail) hws
      have htext : ws ++ joinWith ([',', '\n'] ++ indent) (serializeElements indent [element]) ++
          ws2 ++ ']' :: tail = ws ++ serializeJSONProperty indent element ++ (ws2 ++ ']' :: tail) := by
        simp [serializeElements, joinWith]
      rw [htext, parseElements]
      simp only [hval]
      rw [skipWhiteSpace_append_cons ws2 tail ']' hws2 (by decide)]
      rfl
    | cons next more =>
      have hval := parseValue_flatObject bound indent hindent element helement fuel
        (by simp at hfuel; omega) ws
        (',' :: ('\n' :: indent ++
          joinWith ([',', '\n'] ++ indent) (serializeElements indent (next :: more)) ++ ws2 ++
          ']' :: tail)) hws
      have hrest := ih fuel ('\n' :: indent) ws2 tail (by simp)
        (fun e he => hflat e (List.mem_cons_of_mem _ he))
        (by simp at hfuel ⊢; omega)
        (allWhiteSpace_cons _ _ (by decide) hindent) hws2
      have htext : ws ++ joinWith ([',', '\n'] ++ indent)
          (serializeElements indent (element :: next :: more)) ++ ws2 ++ ']' :: tail =
          ws ++ serializeJSONProperty indent element ++ (',' :: ('\n' :: indent ++
          joinWith ([',', '\n'] ++ indent) (serializeElements indent (next :: more)) ++ ws2 ++
          ']' :: tail)) := by
        simp [serializeElements, joinWith]
      rw [htext, parseElements]
      simp only [hval]
      rw [skipWhiteSpace_cons ',' _ (by decide)]
      simp only [hrest]

theorem joinWith_length (separator : List Char) (parts : List (List Char)) (k : Nat)
    (h : ∀ part ∈ parts, k ≤ part.length) :
    k * parts.length ≤ (joinWith separator parts).length := by
  induction parts with
  | nil => simp [joinWith]
  | cons part rest ih =>
    have hpart := h part (by simp)
    have hrest := ih (fun p hp => h p (List.mem_cons_of_mem _ hp))
    cases rest with
    | nil => simp [joinWith]; omega
    | cons next more =>
      simp only [joinWith, List.length_append, List.length_cons] at hrest ⊢
      rw [Nat.mul_add]
      omega

theorem serializeElements_length (indent : List Char) (elements : List JsonValue) :
    (serializeElements indent elements).length = elements.length := by
  induction elements with
  | nil => simp [serializeElements]
  | cons element rest ih => simp [serializeElements, ih]

theorem serializeElements_mem (bound : Nat) (indent : List Char) (elements : List JsonValue)
    (hflat : ∀ element ∈ elements, IsFlatObject bound element) :
    ∀ part ∈ serializeElements indent elements, 4 ≤ part.length := by
  induction elements with
  | nil => intro part hpart; simp [serializeElements] at hpart
  | cons element rest ih =>
    intro part hpart
    simp only [serializeElements, List.mem_cons] at hpart
    rcases hpart with rfl | hpart
    · obtain ⟨_, _, hlen⟩ :=
        serializeJSONProperty_flatObject_head bound indent [] element (hflat element (by simp))
      exact hlen
    · exact ih (fun e he => hflat e (List.mem_cons_of_mem _ he)) part hpart

/-- The parser reads back what `JSON.stringify(.., null, 2)` wrote for an array
of flat objects. -/
theorem jsonParse_jsonStringify_flatObjects (bound : Nat) (hbound : bound ≤ 5)
    (elements : List JsonValue) (hflat : ∀ element ∈ elements, IsFlatObject bound element) :
    jsonParse (jsonStringify (.array elements)) = some (.array elements) := by
  cases elements with
  | nil =>
    simp only [jsonParse, jsonStringify, serializeJSONProperty]
    rfl
  | cons element rest =>
    have hinner : AllWhiteSpace ([] ++ jsonGap) :=
      allWhiteSpace_append _ _ allWhiteSpace_nil allWhiteSpace_jsonGap
    obtain ⟨after, hcs, _⟩ := serializeJSONProperty_flatObject_head bound ([] ++ jsonGap)
      ((match rest with
        | [] => []
        | next :: more => ([',', '\n'] ++ ([] ++ jsonGap)) ++
            joinWith ([',', '\n'] ++ ([] ++ jsonGap))
              (serializeElements ([] ++ jsonGap) (next :: more))) ++ ['\n', ']'])
      element (hflat element (by simp))
    have hlength := joinWith_length ([',', '\n'] ++ ([] ++ jsonGap))
      (serializeElements ([] ++ jsonGap) (element :: rest)) 4
      (serializeElements_mem bound _ _ hflat)
    rw [serializeElements_length] at hlength
    have htext : serializeJSONProperty [] (.array (element :: rest)) =
        '[' :: ('\n' :: ([] ++ jsonGap) ++
          joinWith ([',', '\n'] ++ ([] ++ jsonGap))
            (serializeElements ([] ++ jsonGap) (element :: rest)) ++ ['\n'] ++ ']' :: []) := by
      simp [serializeJSONProperty]
    have hfuel : (element :: rest).length + bound + 2 ≤
        (serializeJSONProperty [] (.array (element :: rest))).length := by
      rw [htext]
      simp only [List.length_cons, List.length_append, List.length_nil] at hlength ⊢
      omega
    have helements := parseElements_flatObjects bound ([] ++ jsonGap) hinner (element :: rest)
      (serializeJSONProperty [] (.array (element :: rest))).length
      ('\n' :: ([] ++ jsonGap)) ['\n'] [] (by simp) hflat hfuel
      (allWhiteSpace_cons _ _ (by decide) hinner)
      (allWhiteSpace_cons _ _ (by decide) allWhiteSpace_nil)
    have hskip : skipWhiteSpace ('\n' :: ([] ++ jsonGap) ++
          joinWith ([',', '\n'] ++ ([] ++ jsonGap))
            (serializeElements ([] ++ jsonGap) (element :: rest)) ++ ['\n'] ++ ']' :: []) =
        '\x7b' :: after := by
      have hjoin : joinWith ([',', '\n'] ++ ([] ++ jsonGap))
          (serializeElements ([] ++ jsonGap) (element :: rest)) ++ ['\n'] ++ ']' :: [] =
          '\x7b' :: after := by
        rw [← hcs]
        cases rest <;> simp [serializeElements, joinWith]
      rw [List.append_assoc, List.append_assoc, ← List.append_assoc (joinWith _ _), hjoin]
      exact skipWhiteSpace_append_cons _ _ _
        (allWhiteSpace_cons _ _ (by decide) hinner) (by decide)
    simp only [jsonParse, jsonStringify]
    rw [parseValue]
    conv => lhs; rw [htext]
    rw [skipWhiteSpace_cons '[' _ (by decide)]
    simp only [hskip]
    rw [htext] at helements
    simp at helements
    simp [helements, skipWhiteSpace]

theorem testResultValue_flat (test : TestResult) : IsFlatObject 5 (testResultValue test) := by
  obtain ⟨name, status, details, error, duration⟩ := test
  cases details <;> cases error <;> cases duration <;>
    simp [testResultValue, IsFlatObject, JsonValue.isScalar]

theorem readTestResult_testResultValue (test : TestResult) :
    readTestResult (testResultValue test) = some test := by
  obtain ⟨name, status, details, error, duration⟩ := test
  cases details <;> cases error <;> cases duration <;>
    simp [testResultValue, readTestResult, property, readOptionalString, readOptionalNumber,
      List.find?]

theorem readResults_resultsValue (results : List TestResult) :
    readResults (resultsValue results) = some results := by
  simp only [readResults, resultsValue]
  induction results with
  | nil => rfl
  | cons test rest ih =>
    simp only [List.map_cons, readTestResults, readTestResult_testResultValue, ih]

/-! ## The structured artifact (C7) -/

/-- C7: for every sequence of outcomes, `JSON.parse` applied to the text written
to `results.json` (`JSON.stringify(testResults, null, 2)`) yields the value of
the input array, and reading that value property by property gives back a
sequence equal to the input, field by field and in the same order. -/
theorem jsonParse_jsonStringify_results (results : List TestResult) :
    jsonParse (jsonStringify (resultsValue results)) = some (resultsValue results) ∧
    readResults (resultsValue results) = some results ∧
    (∀ generatedOn,
      (jsonParse (generateReports results generatedOn).1).bind readResults = some results) ∧
    (∀ env out, runTests env = .ok out →
      (jsonParse out.resultsJson).bind readResults = some out.testResults) := by
  have hparse : ∀ rs : List TestResult,
      jsonParse (jsonStringify (resultsValue rs)) = some (resultsValue rs) := by
    intro rs
    refine jsonParse_jsonStringify_flatObjects 5 (Nat.le_refl 5) (rs.map testResultValue) ?_
    intro element helement
    obtain ⟨test, _, rfl⟩ := List.mem_map.mp helement
    exact testResultValue_flat test
  have hread : ∀ rs : List TestResult,
      (jsonParse (jsonStringify (resultsValue rs))).bind readResults = some rs := by
    intro rs
    rw [hparse rs]
    exact readResults_resultsValue rs
  refine ⟨hparse results, readResults_resultsValue results, fun _ => hread results, ?_⟩
  intro env out hout
  cases hclose : closeBrowser env with
  | error e => simp [runTests, hclose, bind, Except.bind] at hout
  | ok u =>
    simp [runTests, hclose, bind, Except.bind, pure, Except.pure] at hout
    rw [← hout]
    exact hread (collectResults env)

set_option maxRecDepth 100000 in
/-- Witness of C7: the run with a missing file writes the text below to
`results.json`, and parsing that text gives back the single outcome. -/
theorem jsonParse_jsonStringify_results_witness :
    runTests envMissingFile = .ok {
      testResults := collectResults envMissingFile
      resultsJson :=
        "[\n" ++
        "  \x7b\n" ++
        "    \"name\": \"Test Suite Initialization\",\n" ++
        "    \"status\": \"failed\",\n" ++
        "    \"error\": \"Extension file missing: tracking-blocker.js\",\n" ++
        "    \"duration\": 0\n" ++
        "  \x7d\n" ++
        "]"
      htmlReport :=
        generateHtmlReport (collectResults envMissingFile) envMissingFile.toLocaleString
      exitCode := 1 } ∧
    (jsonParse (jsonStringify (resultsValue (collectResults envMissingFile)))).bind
      readResults = some (collectResults envMissingFile) :=
  have hrun : runTests envMissingFile = .ok {
      testResults := collectResults envMissingFile
      resultsJson := jsonStringify (resultsValue (collectResults envMissingFile))
      htmlReport :=
        generateHtmlReport (collectResults envMissingFile) envMissingFile.toLocaleString
      exitCode := 1 } := rfl
  have hjson : jsonStringify (resultsValue (collectResults envMissingFile)) =
      "[\n" ++
      "  \x7b\n" ++
      "    \"name\": \"Test Suite Initialization\",\n" ++
      "    \"status\": \"failed\",\n" ++
      "    \"error\": \"Extension file missing: tracking-blocker.js\",\n" ++
      "    \"duration\": 0\n" ++
      "  \x7d\n" ++
      "]" := by decide
  ⟨hjson ▸ hrun,
    (jsonParse_jsonStringify_results (collectResults envMissingFile)).2.2.2
      envMissingFile _ hrun⟩

end TrackerBlock
